import Mathlib

/-!
Verification development for the Picard plugin "Additional Artists Details"
(source: src/__init__.py, class ArtistDetailsPlugin).

The plugin keeps global caches of artist and area records, per-album
outstanding-request counters and per-album outstanding-area sets, and is
driven by asynchronous fetch-completion callbacks.  We embed the mutable
state as an explicit record (PluginState), Python dictionaries as
association lists (newest binding first; only lookup, insert, pop and
element count are ever used by the source), Python sets as duplicate-free
string lists, and each method of the class as a pure function from state
to state.  Functions that issue fetches, perform metadata write-back or
signal album finalization additionally return a list of observable
events.  A session is a trace of externally triggered steps (album/track
processing, fetch completions matched against the pending fetches, album
removal) folded over a world that carries the plugin state, the pending
fetch sets of the external scheduler and the accumulated event log.
-/

namespace AAD

/-- MusicBrainz id of the part-of relationship type (module constant
RELATIONSHIP_TYPE_PART_OF in the source). -/
def RELATIONSHIP_TYPE_PART_OF : String := "de7cc874-8b1b-3a05-8272-f3834c968fb7"

/-- MusicBrainz id of the country area type (AREA_TYPE_COUNTRY). -/
def AREA_TYPE_COUNTRY : String := "06dd0ae4-8c74-30bb-b43d-95dcedf961de"

/-- MusicBrainz id of the county area type (AREA_TYPE_COUNTY). -/
def AREA_TYPE_COUNTY : String := "bcecec27-8bdb-3e00-8254-d948dda502fa"

/-- MusicBrainz id of the municipality area type (AREA_TYPE_MUNICIPALITY). -/
def AREA_TYPE_MUNICIPALITY : String := "17246454-5ac4-36a1-b81a-4753eb2dab20"

/-- MusicBrainz id of the subdivision area type (AREA_TYPE_SUBDIVISION). -/
def AREA_TYPE_SUBDIVISION : String := "fd3d44c5-80a1-3842-9745-2c4972d35afa"

/-- the CONDITIONAL_LOCATIONS set of the source. -/
def CONDITIONAL_LOCATIONS : List String :=
  [AREA_TYPE_COUNTY, AREA_TYPE_MUNICIPALITY, AREA_TYPE_SUBDIVISION]

/-- Lookup in a string-keyed association list (Python dict access). -/
def dlookup {α : Type} : List (String × α) → String → Option α
  | [], _ => none
  | (k', v) :: rest, k => if k' = k then some v else dlookup rest k

/-- Dict assignment d[k] = v.  The newest binding shadows older ones;
only dlookup, dpop and per-key facts are ever used, so shadowing is an
adequate model of in-place update. -/
def dinsert {α : Type} (k : String) (v : α) (d : List (String × α)) : List (String × α) :=
  (k, v) :: d

/-- Dict removal d.pop(k, None): drops every binding of k. -/
def dpop {α : Type} (k : String) (d : List (String × α)) : List (String × α) :=
  d.filter fun p => p.1 != k

/-- Python set add: insert the element unless already present. -/
def sadd (x : String) (s : List String) : List String :=
  if s.contains x then s else x :: s

/-- Python set discard: remove the element if present. -/
def sdiscard (x : String) (s : List String) : List String :=
  s.filter fun y => y != x

/-- Python set union (left operand order first). -/
def sunion (a b : List String) : List String :=
  a ++ b.filter fun x => !(a.contains x)

/-- the Area named tuple of the source. -/
structure Area where
  parent : String
  name : String
  country : String
  type : String
  type_text : String
deriving DecidableEq, Repr

/-- the MetadataPair named tuple: the artist set of a destination and the
destination metadata (a Picard Metadata object, modelled as a dict of
variables). -/
structure MetadataPair where
  artists : List String
  target : List (String × String)
deriving DecidableEq, Repr

/-- one value of the albums dict: the album artist set and the list of
registered destinations (key ALBUM_ARTISTS and key TRACKS). -/
structure AlbumTarget where
  album_artists : List String
  tracks : List MetadataPair
deriving DecidableEq, Repr

/-- The mutable plugin state: the four members of result_cache plus the
three per-album dicts of ArtistDetailsPlugin. -/
structure PluginState where
  artist_cache : List (String × List (String × String))
  artist_requests : List String
  area_cache : List (String × Area)
  area_requests : List String
  album_processing_count : List (String × Int)
  albums : List (String × AlbumTarget)
  album_area_requests : List (String × List String)
deriving DecidableEq, Repr

/-- The plugin configuration options read by the source. -/
structure Config where
  process_tracks : Bool
  area_county : Bool
  area_municipality : Bool
  area_subdivision : Bool
deriving DecidableEq, Repr

/-- Observable actions of the plugin: issuing a fetch (add_album_task in
_get_artist_info / _get_area_info), delivery of a fetch completion by the
scheduler, execution of the metadata write loop of _save_artist_metadata,
and the call album._finalize_loading(None). -/
inductive Event where
  | fetchArtist (id albumId : String)
  | fetchArea (id albumId : String)
  | artistCompleted (id albumId : String)
  | areaCompleted (id albumId : String)
  | writeBackRun (albumId : String)
  | finalize (albumId : String)
deriving DecidableEq, Repr

/-- the quintuple returned by _parse_area, with named components. -/
structure ParsedArea where
  pid : String
  pname : String
  pcountry : String
  ptype : String
  ptype_text : String
deriving DecidableEq, Repr

/-- an area document as read by _parse_area.  A field is none when the
key is absent from the dict; the iso code lists keep presence and
contents separate because the source tests both presence and
non-emptiness. -/
structure AreaDoc where
  id : Option String
  name : Option String
  type_id : Option String
  type_text : Option String
  iso1 : Option (List String)
  iso2 : Option (List String)
deriving DecidableEq, Repr

/-- an entry of the relations list of an area document, as read by
_parse_area_relation. -/
structure RelDoc where
  type_id : Option String
  direction : Option String
  area : Option AreaDoc
deriving DecidableEq, Repr

/-- a full area response document: the area fields plus the optional
relations list. -/
structure AreaDocTop where
  base : AreaDoc
  relations : Option (List RelDoc)
deriving DecidableEq, Repr

/-- the life-span sub-dict of an artist document. -/
structure LifeSpan where
  ls_begin : Option String
  ls_end : Option String
deriving DecidableEq, Repr

/-- an artist response document as read by _artist_submission_handler.
For the three area references the source requires the key, a truthy
sub-dict, an id key and a truthy id; some s here models the extracted id
string (possibly empty, which the source treats as falsy). -/
structure ArtistDoc where
  type : Option String
  gender : Option String
  name : Option String
  sort_name : Option String
  disambiguation : Option String
  life_span : Option LifeSpan
  area : Option String
  begin_area : Option String
  end_area : Option String
deriving DecidableEq, Repr

/-- _get_album_area_request_count. -/
def album_area_request_count (st : PluginState) (albumId : String) : Nat :=
  match dlookup st.album_area_requests albumId with
  | none => 0
  | some s => s.length

/-- _add_album_area_request. -/
def add_album_area_request (st : PluginState) (albumId areaId : String) : PluginState :=
  let cur := match dlookup st.album_area_requests albumId with
    | none => []
    | some s => s
  { st with album_area_requests := dinsert albumId (sadd areaId cur) st.album_area_requests }

/-- _remove_album_area_request. -/
def remove_album_area_request (st : PluginState) (albumId areaId : String) : PluginState :=
  match dlookup st.album_area_requests albumId with
  | none => st
  | some s => { st with album_area_requests := dinsert albumId (sdiscard areaId s) st.album_area_requests }

/-- _make_empty_target. -/
def make_empty_target (st : PluginState) (albumId : String) : PluginState :=
  match dlookup st.albums albumId with
  | some _ => st
  | none => { st with albums := dinsert albumId ⟨[], []⟩ st.albums }

/-- _add_target. -/
def add_target (st : PluginState) (albumId : String) (artists : List String)
    (target : List (String × String)) : PluginState :=
  let st1 := make_empty_target st albumId
  match dlookup st1.albums albumId with
  | some t => { st1 with albums := dinsert albumId { t with tracks := t.tracks ++ [⟨artists, target⟩] } st1.albums }
  | none => st1

/-- _remove_album: pops the albums entry and the counter entry (and, as
the source does, leaves album_area_requests untouched). -/
def remove_album (st : PluginState) (albumId : String) : PluginState :=
  { st with albums := dpop albumId st.albums,
            album_processing_count := dpop albumId st.album_processing_count }

/-- _album_add_request. -/
def album_add_request (st : PluginState) (albumId : String) : PluginState :=
  let cur : Int := match dlookup st.album_processing_count albumId with
    | none => 0
    | some c => c
  { st with album_processing_count := dinsert albumId (cur + 1) st.album_processing_count }

/-- the truthiness test on the counter entry used by the first guard of
_save_artist_metadata. -/
def counter_busy (st : PluginState) (albumId : String) : Bool :=
  match dlookup st.album_processing_count albumId with
  | some c => c != 0
  | none => false

/-- lookup of an area record in the cache, with the all-empty placeholder
used by _drill_area for a missing id. -/
def lookupArea (cache : List (String × Area)) (areaId : String) : Area :=
  match dlookup cache areaId with
  | some a => a
  | none => ⟨"", "", "", "", ""⟩

/-- the location-append decision of the _drill_area loop body. -/
def includeLocation (cfg : Config) (a : Area) (location : List String) : Bool :=
  if location.isEmpty || !(CONDITIONAL_LOCATIONS.contains a.type) then true
  else (a.type == AREA_TYPE_COUNTY && cfg.area_county)
    || (a.type == AREA_TYPE_MUNICIPALITY && cfg.area_municipality)
    || (a.type == AREA_TYPE_SUBDIVISION && cfg.area_subdivision)

/-- the while loop of _drill_area.  The fuel argument is the counter i of
the source (7 on entry); the third component of the result counts the
loop iterations actually executed. -/
def drill_loop (cfg : Config) (cache : List (String × Area)) :
    Nat → String → String → List String → String × List String × Nat
  | 0, _, country, location => (country, location, 0)
  | Nat.succ f, area_id, country, location =>
    if area_id = "" ∨ country ≠ "" then (country, location, 0)
    else
      let a := lookupArea cache area_id
      let location' := if includeLocation cfg a location then location ++ [a.name] else location
      let r := drill_loop cfg cache f a.parent a.country location'
      (r.1, r.2.1, r.2.2 + 1)

/-- _drill_area. -/
def drill_area (cfg : Config) (st : PluginState) (area_id : String) : String × String :=
  let r := drill_loop cfg st.area_cache 7 area_id "" []
  (r.1, String.intercalate ", " r.2.1)

/-- the number of loop iterations executed by _drill_area. -/
def drill_hops (cfg : Config) (cache : List (String × Area)) (area_id : String) : Nat :=
  (drill_loop cfg cache 7 area_id "" []).2.2

/-- _parse_area. -/
def parse_area (a : AreaDoc) : ParsedArea :=
  match a.id with
  | none => ⟨"", "", "", "", ""⟩
  | some area_id =>
    let area_name := a.name.getD "Unknown Name"
    let area_type := a.type_id.getD ""
    let area_type_text := a.type_text.getD "Unknown Area Type"
    let country :=
      if area_type = AREA_TYPE_COUNTRY then
        match a.iso1 with
        | some (c :: _) => c
        | _ =>
          match a.iso2 with
          | some (c :: _) => c.take 2
          | _ => ""
      else ""
    ⟨area_id, area_name, country, area_type, area_type_text⟩

/-- _get_artist_info: increments the album counter and issues the fetch. -/
def get_artist_info (st : PluginState) (artistId albumId : String) : PluginState × List Event :=
  (album_add_request st albumId, [Event.fetchArtist artistId albumId])

/-- _get_area_info: marks the area requested, increments the album
counter, tracks the area against the album and issues the fetch. -/
def get_area_info (st : PluginState) (areaId albumId : String) : PluginState × List Event :=
  let st1 := { st with area_requests := sadd areaId st.area_requests }
  let st2 := album_add_request st1 albumId
  let st3 := add_album_area_request st2 albumId areaId
  (st3, [Event.fetchArea areaId albumId])

/-- membership of a field name in the excluded set of
_set_artist_metadata. -/
def excludedField (k : String) : Bool :=
  k == "area" || k == "begin-area" || k == "end-area"

/-- replace every leftmost non-overlapping occurrence of a nonempty
pattern in a character list (the semantics of the Python str.replace
calls of the source).  The fuel argument keeps the recursion structural;
it is initialized to the list length, which one consumed character per
step never outruns. -/
def listReplaceAux (pat sub : List Char) : Nat → List Char → List Char
  | 0, l => l
  | _, [] => []
  | Nat.succ f, c :: rest =>
    if pat ≠ [] ∧ pat.isPrefixOf (c :: rest) then
      sub ++ listReplaceAux pat sub f ((c :: rest).drop pat.length)
    else c :: listReplaceAux pat sub f rest

/-- Python str.replace(pat, sub) for a nonempty pattern. -/
def strReplace (s pat sub : String) : String :=
  ⟨listReplaceAux pat.data sub.data s.data.length s.data⟩

/-- the variable name written by the nested _set_item of
_set_artist_metadata. -/
def mkItemKey (artistId key : String) : String :=
  "~artist_" ++ artistId ++ "_" ++ strReplace key "-" "_"

/-- the ordered list of (variable, value) pairs written by
_set_artist_metadata for one artist. -/
def samPairs (cfg : Config) (st : PluginState) (artistId : String)
    (info : List (String × String)) : List (String × String) :=
  info.flatMap fun kv =>
    if excludedField kv.1 then
      let dr := drill_area cfg st kv.2
      (if dr.1 ≠ "" then [(mkItemKey artistId (strReplace kv.1 "area" "country"), dr.1)] else []) ++
      (if dr.2 ≠ "" then [(mkItemKey artistId (strReplace kv.1 "area" "location"), dr.2)] else [])
    else [(mkItemKey artistId kv.1, kv.2)]

/-- one metadata assignment destination[k] = v. -/
def setKV (k v : String) (t : List (String × String)) : List (String × String) :=
  dinsert k v t

/-- apply a sequence of metadata assignments in order. -/
def applyPairs (ps : List (String × String)) (t : List (String × String)) : List (String × String) :=
  ps.foldl (fun acc kv => setKV kv.1 kv.2 acc) t

/-- _set_artist_metadata. -/
def set_artist_metadata (cfg : Config) (st : PluginState) (target : List (String × String))
    (artistId : String) (info : List (String × String)) : List (String × String) :=
  applyPairs (samPairs cfg st artistId info) target

/-- the full ordered write sequence of the inner loops of
_save_artist_metadata for one destination: union the album artists with
the destination artists and write every cached artist. -/
def trackWritePairs (cfg : Config) (st : PluginState) (albumArtists : List String)
    (item : MetadataPair) : List (String × String) :=
  (sunion albumArtists item.artists).flatMap fun artist =>
    match dlookup st.artist_cache artist with
    | some info => samPairs cfg st artist info
    | none => []

/-- _save_artist_metadata.  Emits writeBackRun exactly when all three
guards pass and the write loop executes. -/
def save_artist_metadata (cfg : Config) (st : PluginState) (albumId : String) :
    PluginState × List Event :=
  if counter_busy st albumId then (st, [])
  else if album_area_request_count st albumId > 0 then (st, [])
  else
    match dlookup st.albums albumId with
    | none => (st, [])
    | some tgt =>
      if tgt.tracks.isEmpty then (st, [])
      else
        let tracks' := tgt.tracks.map fun item =>
          { item with target := applyPairs (trackWritePairs cfg st tgt.album_artists item) item.target }
        ({ st with albums := dinsert albumId { tgt with tracks := tracks' } st.albums },
         [Event.writeBackRun albumId])

/-- the counter value read by _album_remove_request before decrementing:
the entry value, or 1 when the entry is absent (the source first creates
the entry at 1). -/
def ctr_pre (st : PluginState) (albumId : String) : Int :=
  match dlookup st.album_processing_count albumId with
  | none => 1
  | some c => c

/-- the decrement block of _album_remove_request. -/
def decr_count (st : PluginState) (albumId : String) : PluginState :=
  { st with album_processing_count :=
      dinsert albumId (ctr_pre st albumId - 1) st.album_processing_count }

/-- _album_remove_request: decrement (creating the entry at 1 first when
absent), then, whenever fewer than one area request is outstanding for
the album, attempt the save and signal finalization. -/
def album_remove_request (cfg : Config) (st : PluginState) (albumId : String) :
    PluginState × List Event :=
  let st1 := decr_count st albumId
  if album_area_request_count st1 albumId < 1 then
    let r := save_artist_metadata cfg st1 albumId
    (r.1, r.2 ++ [Event.finalize albumId])
  else (st1, [])

/-- the per-artist loop of _artist_processing. -/
def artist_processing_loop (albumId : String) :
    List String → PluginState → PluginState × List Event
  | [], st => (st, [])
  | temp_id :: rest, st =>
    if st.artist_requests.contains temp_id then
      artist_processing_loop albumId rest st
    else
      let st1 := { st with artist_requests := sadd temp_id st.artist_requests }
      let r := get_artist_info st1 temp_id albumId
      let r2 := artist_processing_loop albumId rest r.1
      (r2.1, r.2 ++ r2.2)

/-- _artist_processing: fetch the unrequested artists, register the
destination, then attempt an immediate save. -/
def artist_processing (cfg : Config) (st : PluginState) (artists : List String)
    (albumId : String) : PluginState × List Event :=
  let r := artist_processing_loop albumId artists st
  let st2 := add_target r.1 albumId artists []
  let r3 := save_artist_metadata cfg st2 albumId
  (r3.1, r.2 ++ r3.2)

/-- make_album_vars: create the album entry, record the album artists,
then run _artist_processing. -/
def make_album_vars (cfg : Config) (st : PluginState) (albumId : String)
    (artists : List String) : PluginState × List Event :=
  let st1 := make_empty_target st albumId
  let st2 := match dlookup st1.albums albumId with
    | some t => { st1 with albums := dinsert albumId { t with album_artists := artists } st1.albums }
    | none => st1
  artist_processing cfg st2 artists albumId

/-- the nested _add_country of _parse_area_relation. -/
def add_country (st : PluginState) (p : ParsedArea) : PluginState :=
  match dlookup st.area_cache p.pid with
  | some _ => st
  | none =>
    { st with area_cache := dinsert p.pid ⟨"", p.pname, p.pcountry, p.ptype, p.ptype_text⟩ st.area_cache,
              area_requests := sadd p.pid st.area_requests }

/-- _parse_area_relation. -/
def parse_area_relation (st : PluginState) (area_id : String) (rel : RelDoc)
    (albumId : String) (area_name area_type area_type_text : String) :
    PluginState × List Event :=
  match rel.type_id, rel.area with
  | some tid, some adoc =>
    if tid ≠ RELATIONSHIP_TYPE_PART_OF then (st, [])
    else
      let p := parse_area adoc
      if p.pid = "" then (st, [])
      else if rel.direction = some "backward" then
        let st1 :=
          match dlookup st.area_cache area_id with
          | some _ => st
          | none =>
            { st with area_cache := dinsert area_id ⟨p.pid, area_name, "", area_type, p.ptype_text⟩ st.area_cache,
                      area_requests := sadd area_id st.area_requests }
        if p.ptype = AREA_TYPE_COUNTRY then (add_country st1 p, [])
        else if (dlookup st1.area_cache p.pid).isNone ∧ st1.area_requests.contains p.pid = false then
          get_area_info st1 p.pid albumId
        else (st1, [])
      else if rel.direction = some "forward" ∧ p.ptype = AREA_TYPE_COUNTRY then
        (add_country st p, [])
      else
        ({ st with area_requests := sadd p.pid st.area_requests,
                   area_cache := dinsert p.pid ⟨area_id, p.pname, "", p.ptype, p.ptype_text⟩ st.area_cache }, [])
  | _, _ => (st, [])

/-- the relations loop of _area_submission_handler. -/
def rel_loop (albumId area_id area_name area_type area_type_text : String) :
    List RelDoc → PluginState → PluginState × List Event
  | [], st => (st, [])
  | rel :: rest, st =>
    let r := parse_area_relation st area_id rel albumId area_name area_type area_type_text
    let r2 := rel_loop albumId area_id area_name area_type area_type_text rest r.1
    (r2.1, r.2 ++ r2.2)

/-- _area_submission_handler: the try body (skipped on error), then the
guaranteed cleanup: untrack the area and decrement the counter. -/
def area_handler (cfg : Config) (st : PluginState) (err : Bool) (doc : AreaDocTop)
    (area albumId : String) : PluginState × List Event :=
  let body : PluginState × List Event :=
    if err then (st, [])
    else
      let p := parse_area doc.base
      let stA :=
        if p.ptype = AREA_TYPE_COUNTRY ∧ (dlookup st.area_cache p.pid).isNone then
          { st with area_cache := dinsert p.pid ⟨"", p.pname, p.pcountry, p.ptype, p.ptype_text⟩ st.area_cache }
        else st
      match doc.relations with
      | none => (stA, [])
      | some rels => rel_loop albumId p.pid p.pname p.ptype p.ptype_text rels stA
  let st2 := remove_album_area_request body.1 albumId area
  let r3 := album_remove_request cfg st2 albumId
  (r3.1, body.2 ++ r3.2)

/-- one entry of the artist_info dict when the document key is present
and truthy. -/
def truthyEntry (k : String) (v : Option String) : List (String × String) :=
  match v with
  | some s => if s ≠ "" then [(k, s)] else []
  | none => []

/-- one iteration of the area/begin-area/end-area loop of
_artist_submission_handler: record the id on the artist and trigger area
resolution when the id is not yet requested. -/
def process_area_field (albumId k : String) (v : Option String)
    (acc : PluginState × List Event × List (String × String)) :
    PluginState × List Event × List (String × String) :=
  match v with
  | none => acc
  | some aid =>
    if aid = "" then acc
    else
      let info' := acc.2.2 ++ [(k, aid)]
      if acc.1.area_requests.contains aid then (acc.1, acc.2.1, info')
      else
        let r := get_area_info acc.1 aid albumId
        (r.1, acc.2.1 ++ r.2, info')

/-- the try body of _artist_submission_handler on success: build the
artist_info dict in source order and store it. -/
def artist_body (st : PluginState) (doc : ArtistDoc) (artist albumId : String) :
    PluginState × List Event :=
  let info0 := truthyEntry "type" doc.type ++ truthyEntry "gender" doc.gender ++
    truthyEntry "name" doc.name ++ truthyEntry "sort-name" doc.sort_name ++
    truthyEntry "disambiguation" doc.disambiguation
  let info1 := info0 ++ (match doc.life_span with
    | some ls => truthyEntry "begin" ls.ls_begin ++ truthyEntry "end" ls.ls_end
    | none => [])
  let a1 := process_area_field albumId "area" doc.area (st, [], info1)
  let a2 := process_area_field albumId "begin-area" doc.begin_area a1
  let a3 := process_area_field albumId "end-area" doc.end_area a2
  ({ a3.1 with artist_cache := dinsert artist a3.2.2 a3.1.artist_cache }, a3.2.1)

/-- _artist_submission_handler: the try body (skipped on error), then the
guaranteed counter decrement. -/
def artist_handler (cfg : Config) (st : PluginState) (err : Bool) (doc : ArtistDoc)
    (artist albumId : String) : PluginState × List Event :=
  let body := if err then (st, []) else artist_body st doc artist albumId
  let r := album_remove_request cfg body.1 albumId
  (r.1, body.2 ++ r.2)

/-- an externally triggered step of a session. -/
inductive Step where
  | processAlbum (albumId : String) (artists : List String)
  | processTrack (albumId : String) (artists : List String)
  | artistDone (artist albumId : String) (err : Bool) (doc : ArtistDoc)
  | areaDone (area albumId : String) (err : Bool) (doc : AreaDocTop)
  | removeAlbum (albumId : String)
deriving DecidableEq, Repr

/-- plugin state plus scheduler state: the pending artist and area
fetches, and the accumulated event log. -/
structure World where
  st : PluginState
  pendA : List (String × String)
  pendR : List (String × String)
  log : List Event
deriving DecidableEq, Repr

/-- pending artist fetches created by a burst of events. -/
def newArtistPends (evs : List Event) : List (String × String) :=
  evs.filterMap fun e => match e with
    | .fetchArtist i a => some (i, a)
    | _ => none

/-- pending area fetches created by a burst of events. -/
def newAreaPends (evs : List Event) : List (String × String) :=
  evs.filterMap fun e => match e with
    | .fetchArea i a => some (i, a)
    | _ => none

/-- one step of a session.  A completion step is delivered only when the
corresponding fetch is pending (the scheduler calls each completion
callback exactly once) and is dropped otherwise. -/
def runStep (cfg : Config) (w : World) : Step → World
  | .processAlbum a artists =>
    let r := make_album_vars cfg w.st a artists
    ⟨r.1, w.pendA ++ newArtistPends r.2, w.pendR ++ newAreaPends r.2, w.log ++ r.2⟩
  | .processTrack a artists =>
    let r := artist_processing cfg w.st artists a
    ⟨r.1, w.pendA ++ newArtistPends r.2, w.pendR ++ newAreaPends r.2, w.log ++ r.2⟩
  | .artistDone artist a err doc =>
    if (artist, a) ∈ w.pendA then
      let r := artist_handler cfg w.st err doc artist a
      ⟨r.1, (w.pendA.erase (artist, a)) ++ newArtistPends r.2,
        w.pendR ++ newAreaPends r.2, w.log ++ (Event.artistCompleted artist a :: r.2)⟩
    else w
  | .areaDone area a err doc =>
    if (area, a) ∈ w.pendR then
      let r := area_handler cfg w.st err doc area a
      ⟨r.1, w.pendA ++ newArtistPends r.2,
        (w.pendR.erase (area, a)) ++ newAreaPends r.2, w.log ++ (Event.areaCompleted area a :: r.2)⟩
    else w
  | .removeAlbum a => ⟨remove_album w.st a, w.pendA, w.pendR, w.log⟩

/-- the empty plugin state at session start. -/
def initState : PluginState := ⟨[], [], [], [], [], [], []⟩

/-- the initial world of a session. -/
def worldInit : World := ⟨initState, [], [], []⟩

/-- run a whole session trace. -/
def runTrace (cfg : Config) (w : World) (steps : List Step) : World :=
  steps.foldl (runStep cfg) w

/-- number of artist fetches issued for an identifier in a log. -/
def aCnt (log : List Event) (id : String) : Nat :=
  (log.filter fun e => match e with
    | .fetchArtist i _ => i == id
    | _ => false).length

/-- number of area fetches issued for an identifier in a log. -/
def rCnt (log : List Event) (id : String) : Nat :=
  (log.filter fun e => match e with
    | .fetchArea i _ => i == id
    | _ => false).length

/-- number of write-back executions for an album in a log. -/
def wbCnt (log : List Event) (albumId : String) : Nat :=
  (log.filter fun e => match e with
    | .writeBackRun a => a == albumId
    | _ => false).length

/-- number of fetches issued on behalf of an album in a log. -/
def issCnt (log : List Event) (albumId : String) : Nat :=
  (log.filter fun e => match e with
    | .fetchArtist _ a => a == albumId
    | .fetchArea _ a => a == albumId
    | _ => false).length

/-- number of fetch completions delivered for an album in a log. -/
def compCnt (log : List Event) (albumId : String) : Nat :=
  (log.filter fun e => match e with
    | .artistCompleted _ a => a == albumId
    | .areaCompleted _ a => a == albumId
    | _ => false).length

/-- the artist identifiers referenced by the album and track processing
steps of a trace. -/
def referencedArtists (steps : List Step) : List String :=
  steps.flatMap fun s => match s with
    | .processAlbum _ artists => artists
    | .processTrack _ artists => artists
    | _ => []

/-- a trace with no album-removal step. -/
def noRemoval (steps : List Step) : Prop :=
  ∀ s ∈ steps, ∀ a, s ≠ Step.removeAlbum a

/-- integer lookup in a counter dict, reading an absent entry as 0. -/
def dlookupInt (m : List (String × Int)) (a : String) : Int :=
  (dlookup m a).getD 0

/-- running per-album fetch balance over a log: an issued fetch counts
+1 for its album, a delivered completion -1. -/
def balStep (m : List (String × Int)) : Event → List (String × Int)
  | .fetchArtist _ a => dinsert a (dlookupInt m a + 1) m
  | .fetchArea _ a => dinsert a (dlookupInt m a + 1) m
  | .artistCompleted _ a => dinsert a (dlookupInt m a - 1) m
  | .areaCompleted _ a => dinsert a (dlookupInt m a - 1) m
  | _ => m

/-- fold the balance over a burst of events. -/
def balAfter (m : List (String × Int)) (evs : List Event) : List (String × Int) :=
  evs.foldl balStep m

/-- the check performed per event: a write-back execution is admissible
only when the balance of its album is zero (all fetches issued so far on
behalf of the album have completed). -/
def evOK (m : List (String × Int)) : Event → Bool
  | .writeBackRun a => dlookupInt m a == 0
  | _ => true

/-- scan a log, carrying the balance, verifying every write-back
execution happens at zero balance for its album. -/
def chkFrom (m : List (String × Int)) : List Event → Bool
  | [] => true
  | e :: rest => evOK m e && chkFrom (balStep m e) rest

/-- a balance map agrees with a counter dict up to a per-album offset. -/
def CAgreeD (d : String → Int) (m c : List (String × Int)) : Prop :=
  ∀ a, dlookupInt m a + d a = dlookupInt c a

/-- the zero offset. -/
def dZero : String → Int := fun _ => 0

/-- the offset that is 1 at one album and 0 elsewhere (the state of a
completion handler between callback delivery and the final decrement). -/
def dOne (x : String) : String → Int := fun a => if a = x then 1 else 0

/-- a begin-request or end-request call, as in claim C3. -/
inductive CtrOp where
  | beginReq (albumId : String)
  | endReq (albumId : String)
deriving DecidableEq, Repr

/-- apply one counter call (_album_add_request / _album_remove_request). -/
def applyCtrOp (cfg : Config) (st : PluginState) : CtrOp → PluginState
  | .beginReq a => album_add_request st a
  | .endReq a => (album_remove_request cfg st a).1

/-- apply a sequence of counter calls. -/
def applyCtrOps (cfg : Config) (st : PluginState) (ops : List CtrOp) : PluginState :=
  ops.foldl (applyCtrOp cfg) st

/-- number of begin-request calls for an album in a call sequence. -/
def beginsFor (ops : List CtrOp) (a : String) : Nat :=
  (ops.filter fun op => match op with
    | .beginReq b => b == a
    | _ => false).length

/-- number of end-request calls for an album in a call sequence. -/
def endsFor (ops : List CtrOp) (a : String) : Nat :=
  (ops.filter fun op => match op with
    | .endReq b => b == a
    | _ => false).length

/-- the dedup contract of a state transition with emitted events, artist
half: the artist pending-request set only grows, and the artist fetches
emitted are exactly one per identifier newly added to the set. -/
def ArtistReqContract (s s' : PluginState) (ev : List Event) : Prop :=
  (∀ id, s.artist_requests.contains id = true → s'.artist_requests.contains id = true)
  ∧ ∀ id, aCnt ev id = if s'.artist_requests.contains id = true
      ∧ s.artist_requests.contains id = false then 1 else 0

/-- the dedup contract, area half: the area pending-request set only
grows, at most one area fetch is emitted per identifier, none for an
identifier already in the set, and a fetched identifier is in the set
afterwards.  (Unlike artists, area identifiers may also enter the set
with no fetch.) -/
def AreaReqContract (s s' : PluginState) (ev : List Event) : Prop :=
  (∀ id, s.area_requests.contains id = true → s'.area_requests.contains id = true)
  ∧ ∀ id, rCnt ev id ≤ 1
    ∧ (s.area_requests.contains id = true → rCnt ev id = 0)
    ∧ (1 ≤ rCnt ev id → s'.area_requests.contains id = true)

/-- both dedup contracts. -/
def ReqOK (s s' : PluginState) (ev : List Event) : Prop :=
  ArtistReqContract s s' ev ∧ AreaReqContract s s' ev

/-- the dedup invariant of a session world: an artist identifier is in
the pending set exactly when the log holds exactly one fetch for it, no
identifier has more than one artist or area fetch, and an area
identifier outside the pending set has no fetch. -/
def ReqInv (w : World) : Prop :=
  (∀ id, w.st.artist_requests.contains id = true ↔ aCnt w.log id = 1)
  ∧ (∀ id, aCnt w.log id ≤ 1)
  ∧ (∀ id, rCnt w.log id ≤ 1)
  ∧ (∀ id, w.st.area_requests.contains id = false → rCnt w.log id = 0)

/-- counter-entry presence is preserved from one state to another. -/
def CountPresMono (s s' : PluginState) : Prop :=
  ∀ a, (dlookup s.album_processing_count a).isSome = true →
    (dlookup s'.album_processing_count a).isSome = true

/-- every fetch emitted in a burst has a counter entry for its album in
the resulting state. -/
def PendCovP (s' : PluginState) (ev : List Event) : Prop :=
  ∀ p ∈ newArtistPends ev ++ newAreaPends ev,
    (dlookup s'.album_processing_count p.2).isSome = true

/-- the balance contract of a fetch-only transition: for any offset, a
balance map agreeing with the counter keeps agreeing after the emitted
events, every write-back check passes (no write-back is emitted), and
counter entries and pend coverage are preserved. -/
def CtrC (s s' : PluginState) (ev : List Event) : Prop :=
  (∀ (d : String → Int) (m : List (String × Int)),
    CAgreeD d m s.album_processing_count →
    chkFrom m ev = true ∧ CAgreeD d (balAfter m ev) s'.album_processing_count)
  ∧ CountPresMono s s' ∧ PendCovP s' ev

/-- the balance contract of a transition that may emit write-backs
(requires exact agreement). -/
def CtrC0 (s s' : PluginState) (ev : List Event) : Prop :=
  (∀ m : List (String × Int),
    CAgreeD dZero m s.album_processing_count →
    chkFrom m ev = true ∧ CAgreeD dZero (balAfter m ev) s'.album_processing_count)
  ∧ CountPresMono s s' ∧ PendCovP s' ev

/-- the balance contract of a completion handler: on entry the balance
is one lower than the counter at the completing album (the delivery was
already counted), and the final decrement restores exact agreement. -/
def CtrC1 (al : String) (s s' : PluginState) (ev : List Event) : Prop :=
  (∀ m : List (String × Int),
    CAgreeD (dOne al) m s.album_processing_count →
    chkFrom m ev = true ∧ CAgreeD dZero (balAfter m ev) s'.album_processing_count)
  ∧ CountPresMono s s' ∧ PendCovP s' ev

/-- the balance invariant of a session world: the log passes the
write-back check, the balance of the log agrees with the counters, and
every pending fetch has a counter entry for its album. -/
def CtrInv (w : World) : Prop :=
  chkFrom [] w.log = true
  ∧ CAgreeD dZero (balAfter [] w.log) w.st.album_processing_count
  ∧ (∀ p ∈ w.pendA, (dlookup w.st.album_processing_count p.2).isSome = true)
  ∧ (∀ p ∈ w.pendR, (dlookup w.st.album_processing_count p.2).isSome = true)

/-- the condition under which _parse_area_relation takes its final
(fallback) branch: a part-of relation with a parseable area id whose
direction is neither backward nor forward-to-a-country. -/
def relFallback (rel : RelDoc) : Bool :=
  match rel.type_id, rel.area with
  | some tid, some adoc =>
    if tid != RELATIONSHIP_TYPE_PART_OF then false
    else if (parse_area adoc).pid == "" then false
    else if rel.direction == some "backward" then false
    else if rel.direction == some "forward" && (parse_area adoc).ptype == AREA_TYPE_COUNTRY then false
    else true
  | _, _ => false

/-! Concrete instances used by counterexamples and witnesses. -/

/-- a concrete configuration (track processing off, all location types
included). -/
def cfg0 : Config := ⟨false, true, true, true⟩

/-- an artist document whose only content is the area id Y. -/
def docArtistAreaY : ArtistDoc := ⟨none, none, none, none, none, none, some "Y", none, none⟩

/-- an artist document whose only content is the area id X. -/
def docArtistAreaX : ArtistDoc := ⟨none, none, none, none, none, none, some "X", none, none⟩

/-- an artist document whose only content is the area id q. -/
def docArtistAreaQ : ArtistDoc := ⟨none, none, none, none, none, none, some "q", none, none⟩

/-- an artist document carrying only a name. -/
def docArtistName (s : String) : ArtistDoc := ⟨none, none, some s, none, none, none, none, none, none⟩

/-- a part-of relation without a direction key whose related area is X
(takes the fallback branch of _parse_area_relation). -/
def relPartOfX : RelDoc :=
  ⟨some RELATIONSHIP_TYPE_PART_OF, none, some ⟨some "X", some "XN", some "T2", some "TT2", none, none⟩⟩

/-- an area document for the non-country area Y carrying the fallback
relation to X. -/
def docAreaY : AreaDocTop := ⟨⟨some "Y", some "YN", some "Tsub", some "Sub", none, none⟩, some [relPartOfX]⟩

/-- the area sub-document of relBackP: the parent area P with its own
type text PTT. -/
def adocP : AreaDoc := ⟨some "P", some "PN", some "PT", some "PTT", none, none⟩

/-- a backward part-of relation whose related (parent) area is P. -/
def relBackP : RelDoc :=
  ⟨some RELATIONSHIP_TYPE_PART_OF, some "backward", some adocP⟩

/-- a country area document carrying a primary iso code list. -/
def docCountryGB : AreaDoc := ⟨some "i", none, some AREA_TYPE_COUNTRY, none, some ["GB"], none⟩

/-- C1 counterexample trace: the area X enters the pending-request set
through relation parsing of the area Y document, so its later reference
from the second artist document issues no fetch at all. -/
def c1trace : List Step :=
  [Step.processAlbum "al" ["a1"],
   Step.artistDone "a1" "al" false docArtistAreaY,
   Step.areaDone "Y" "al" false docAreaY,
   Step.processTrack "al" ["a2"],
   Step.artistDone "a2" "al" false docArtistAreaX]

/-- C2 counterexample trace: artist x is cached while loading album b;
album a then references x (write-back runs at once) and track processing
of album a references y (write-back runs again on completion). -/
def c2trace : List Step :=
  [Step.processAlbum "b" ["x"],
   Step.artistDone "x" "b" false (docArtistName "NX"),
   Step.processAlbum "a" ["x"],
   Step.processTrack "a" ["y"],
   Step.artistDone "y" "a" false (docArtistName "NY")]

/-- C4 counterexample trace: three artist fetches for album a, the first
completes while two are still outstanding. -/
def c4trace : List Step :=
  [Step.processAlbum "a" ["x", "y", "z"],
   Step.artistDone "x" "a" false (docArtistName "NX")]

/-- C5 counterexample trace: the artist completion for album a triggers
an area fetch for q, after which the album is removed. -/
def c5trace : List Step :=
  [Step.processAlbum "a" ["x"],
   Step.artistDone "x" "a" false docArtistAreaQ,
   Step.removeAlbum "a"]

/-- C6 counterexample state: the area cache already holds a record for X. -/
def st6pre : PluginState :=
  { initState with area_cache := [("X", ⟨"p", "N", "c", "t", "tt"⟩)], area_requests := ["X"] }

/-- C7 counterexample state: album a has one registered destination and
references the cached artist x. -/
def st7pre : PluginState :=
  { initState with albums := [("a", ⟨["x"], [⟨[], []⟩]⟩)],
                   artist_cache := [("x", [("name", "N")])] }

/-- a two-node parent cycle in the area cache. -/
def cacheCycle : List (String × Area) :=
  [("a", ⟨"b", "A", "", "", ""⟩), ("b", ⟨"a", "B", "", "", ""⟩)]

/-- an area cache whose node c carries a country code. -/
def cacheCountry : List (String × Area) :=
  [("c", ⟨"", "C", "DE", AREA_TYPE_COUNTRY, "Country"⟩)]



end AAD

namespace AAD

/-! Basic lemmas about the dict and set model. -/

theorem dlookup_dinsert {α : Type} (k k' : String) (v : α) (d : List (String × α)) :
    dlookup (dinsert k v d) k' = if k = k' then some v else dlookup d k' := by
  simp [dlookup, dinsert]

theorem dlookup_dinsert_self {α : Type} (k : String) (v : α) (d : List (String × α)) :
    dlookup (dinsert k v d) k = some v := by
  simp [dlookup_dinsert]

theorem dlookup_dinsert_ne {α : Type} {k k' : String} (v : α) (d : List (String × α))
    (h : k ≠ k') : dlookup (dinsert k v d) k' = dlookup d k' := by
  simp [dlookup_dinsert, h]

theorem dlookup_dpop {α : Type} (k k' : String) (d : List (String × α)) :
    dlookup (dpop k d) k' = if k = k' then none else dlookup d k' := by
  induction d with
  | nil => simp [dpop, dlookup]
  | cons p rest ih =>
    obtain ⟨a, b⟩ := p
    by_cases h1 : a = k
    · subst h1
      by_cases h2 : a = k' <;> simp [dpop, dlookup, h2, List.filter_cons] at ih ⊢ <;>
        simpa [dpop, h2] using ih
    · by_cases h2 : a = k'
      · subst h2
        have hkk : ¬(k = a) := fun h => h1 h.symm
        simp [dpop, dlookup, List.filter_cons, h1, hkk]
      · simp only [dpop, List.filter_cons] at ih ⊢
        simp [h1, dlookup, h2]
        simpa [dpop, h2] using ih

/-! Basic lemmas about the event counters. -/

theorem aCnt_append (l1 l2 : List Event) (id : String) :
    aCnt (l1 ++ l2) id = aCnt l1 id + aCnt l2 id := by
  simp [aCnt, List.filter_append]

theorem rCnt_append (l1 l2 : List Event) (id : String) :
    rCnt (l1 ++ l2) id = rCnt l1 id + rCnt l2 id := by
  simp [rCnt, List.filter_append]

theorem wbCnt_append (l1 l2 : List Event) (a : String) :
    wbCnt (l1 ++ l2) a = wbCnt l1 a + wbCnt l2 a := by
  simp [wbCnt, List.filter_append]

theorem issCnt_append (l1 l2 : List Event) (a : String) :
    issCnt (l1 ++ l2) a = issCnt l1 a + issCnt l2 a := by
  simp [issCnt, List.filter_append]

theorem compCnt_append (l1 l2 : List Event) (a : String) :
    compCnt (l1 ++ l2) a = compCnt l1 a + compCnt l2 a := by
  simp [compCnt, List.filter_append]

/-! C8: the hop bound of _drill_area. -/

theorem drill_loop_hops_le (cfg : Config) (cache : List (String × Area)) :
    ∀ (fuel : Nat) (id c : String) (loc : List String),
      (drill_loop cfg cache fuel id c loc).2.2 ≤ fuel := by
  intro fuel
  induction fuel with
  | zero => intro id c loc; simp [drill_loop]
  | succ f ih =>
    intro id c loc
    simp only [drill_loop]
    split
    · simp
    · exact Nat.succ_le_succ (ih _ _ _)

theorem drill_loop_of_country (cfg : Config) (cache : List (String × Area))
    (fuel : Nat) (id : String) (loc : List String) {c : String} (h : c ≠ "") :
    drill_loop cfg cache fuel id c loc = (c, loc, 0) := by
  cases fuel with
  | zero => rfl
  | succ f => simp [drill_loop, h]

/-- C8: for every starting area identifier and every area-store contents,
including stores whose parent pointers form a cycle, the _drill_area loop
executes at most 7 hops of the parent chain; it executes no hop when the
starting identifier is empty, and exactly one when the starting area
already carries a non-empty country code. -/
theorem c8_drill_hop_bound (cfg : Config) (cache : List (String × Area)) (id : String) :
    drill_hops cfg cache id ≤ 7
    ∧ (id = "" → drill_hops cfg cache id = 0)
    ∧ (id ≠ "" → (lookupArea cache id).country ≠ "" → drill_hops cfg cache id = 1) := by
  refine ⟨drill_loop_hops_le cfg cache 7 id "" [], ?_, ?_⟩
  · intro h; subst h; rfl
  · intro h hc
    show (drill_loop cfg cache (Nat.succ 6) id "" []).2.2 = 1
    simp only [drill_loop]
    rw [if_neg (by simp [h])]
    dsimp only
    rw [if_pos (Or.inr hc)]

/-- C8 witness: the two-node parent cycle terminates within the bound,
and a store whose start node carries a country code stops after one hop. -/
theorem c8_drill_hop_bound_witness :
    drill_hops cfg0 cacheCycle "a" ≤ 7 ∧ drill_hops cfg0 cacheCountry "c" = 1 :=
  ⟨(c8_drill_hop_bound cfg0 cacheCycle "a").1,
   (c8_drill_hop_bound cfg0 cacheCountry "c").2.2 (by decide) (by decide)⟩

/-! C9: the field rules of _parse_area. -/

/-- C9: parsing an area document yields all-empty fields when the id key
is absent; otherwise the name defaults to "Unknown Name" and the type
text to "Unknown Area Type" when absent, the country code is non-empty
only when the parsed type is the country type, and it is taken
preferentially as the first entry of the iso-3166-1 list when present and
non-empty, else as the first 2 characters of the first entry of the
iso-3166-2 list. -/
theorem c9_parse_area (d : AreaDoc) :
    (d.id = none → parse_area d = ⟨"", "", "", "", ""⟩)
    ∧ (∀ i, d.id = some i →
        (parse_area d).pid = i
        ∧ (parse_area d).pname = d.name.getD "Unknown Name"
        ∧ (parse_area d).ptype_text = d.type_text.getD "Unknown Area Type"
        ∧ ((parse_area d).pcountry ≠ "" → (parse_area d).ptype = AREA_TYPE_COUNTRY)
        ∧ (∀ c cs, (parse_area d).ptype = AREA_TYPE_COUNTRY → d.iso1 = some (c :: cs) →
            (parse_area d).pcountry = c)
        ∧ ((d.iso1 = none ∨ d.iso1 = some []) → ∀ c cs,
            (parse_area d).ptype = AREA_TYPE_COUNTRY → d.iso2 = some (c :: cs) →
            (parse_area d).pcountry = c.take 2)) := by
  constructor
  · intro h; simp [parse_area, h]
  · intro i hi
    by_cases hT : d.type_id.getD "" = AREA_TYPE_COUNTRY
    · rcases h1 : d.iso1 with _ | l1
      · rcases h2 : d.iso2 with _ | l2
        · simp [parse_area, hi, hT, h1, h2]
        · cases l2 <;> simp [parse_area, hi, hT, h1, h2]
      · cases l1 with
        | nil =>
          rcases h2 : d.iso2 with _ | l2
          · simp [parse_area, hi, hT, h1, h2]
          · cases l2 <;> simp [parse_area, hi, hT, h1, h2]
        | cons c1 cs1 => simp [parse_area, hi, hT, h1]
    · simp [parse_area, hi, hT]

/-- C9 witness: a country document with an iso-3166-1 list and absent
name and type text. -/
theorem c9_parse_area_witness :
    (parse_area docCountryGB).pname = "Unknown Name"
    ∧ (parse_area docCountryGB).pcountry = "GB" := by
  have h := (c9_parse_area docCountryGB).2 "i" (by decide)
  exact ⟨by simpa [docCountryGB] using h.2.1,
         h.2.2.2.2.1 "GB" [] (by decide) (by decide)⟩

/-! C10: the retroactive backward store of _parse_area_relation. -/

theorem get_area_info_area_cache (st : PluginState) (a al : String) :
    (get_area_info st a al).1.area_cache = st.area_cache := by
  simp [get_area_info, album_add_request, add_album_area_request]

theorem add_country_preserves_present (st : PluginState) (p : ParsedArea)
    {x : String} {r : Area} (h : dlookup st.area_cache x = some r) :
    dlookup (add_country st p).area_cache x = some r := by
  unfold add_country
  cases hpid : dlookup st.area_cache p.pid with
  | some _ => simpa using h
  | none =>
    by_cases hx : p.pid = x
    · subst hx; rw [hpid] at h; exact absurd h (by simp)
    · simpa [dlookup_dinsert, hx] using h

/-- C10: when the backward branch of _parse_area_relation retroactively
stores the original area (absent from the cache), the stored record has
parent = the related area id, empty country and the original type id,
but its type text is the parsed type text of the related (parent) area,
not the original type text received as argument. -/
theorem c10_backward_stores_related_type_text
    (st : PluginState) (area_id albumId area_name area_type area_type_text : String)
    (rel : RelDoc) (adoc : AreaDoc)
    (h1 : rel.type_id = some RELATIONSHIP_TYPE_PART_OF)
    (h2 : rel.area = some adoc)
    (h3 : rel.direction = some "backward")
    (h4 : (parse_area adoc).pid ≠ "")
    (h5 : dlookup st.area_cache area_id = none) :
    dlookup (parse_area_relation st area_id rel albumId area_name area_type area_type_text).1.area_cache area_id
      = some ⟨(parse_area adoc).pid, area_name, "", area_type, (parse_area adoc).ptype_text⟩ := by
  unfold parse_area_relation
  rw [h1, h2]
  simp only [h3, h4, h5, ne_eq, not_true_eq_false, if_false, if_neg, reduceIte]
  split
  · exact add_country_preserves_present _ _ (by simp [dlookup_dinsert])
  · split
    · rw [get_area_info_area_cache]
      simp [dlookup_dinsert]
    · simp [dlookup_dinsert]

/-- C10 witness: with the concrete backward relation relBackP, the
record stored for the original area takes the type text PTT of the
parent area, not the original type text OTT. -/
theorem c10_backward_stores_related_type_text_witness :
    dlookup (parse_area_relation initState "orig" relBackP "al" "ON" "OT" "OTT").1.area_cache "orig"
      = some ⟨"P", "ON", "", "OT", "PTT"⟩ := by
  have h := c10_backward_stores_related_type_text initState "orig" "al" "ON" "OT" "OTT"
    relBackP adocP rfl rfl rfl (by decide) rfl
  simpa using h



end AAD

namespace AAD

/-! Counterexample sessions (concrete runs of the embedded code). -/

/-- C1 counterexample: in the session c1trace the area identifier X is
referenced (the stored record of artist a2 lists X as its area), yet the
log holds zero fetches for X, because X entered the area pending-request
set through the fallback branch of relation parsing, which never fetches.
The claim that every referenced identifier receives exactly one fetch is
therefore false; only the at-most-once half survives. -/
theorem c1_counterexample :
    dlookup (runTrace cfg0 worldInit c1trace).st.artist_cache "a2" = some [("area", "X")]
    ∧ rCnt (runTrace cfg0 worldInit c1trace).log "X" = 0 := by
  decide

/-- C2 counterexample: in the session c2trace album a is loaded once and
never removed, yet the metadata write loop for album a executes twice
(once when the album references the already cached artist x, once more
when the fetch for the track artist y completes).  Write-back is not
exactly-once per album load cycle. -/
theorem c2_counterexample : wbCnt (runTrace cfg0 worldInit c2trace).log "a" = 2 := by
  decide

/-- C3 counterexample: the call sequence begin, end, end leaves the
counter of the album at -1: the defensive entry creation only covers an
absent entry, not one present at value 0, so arbitrary interleavings can
drive the counter negative. -/
theorem c3_counterexample :
    dlookup (applyCtrOps cfg0 initState
      [CtrOp.beginReq "a", CtrOp.endReq "a", CtrOp.endReq "a"]).album_processing_count "a"
      = some (-1) := by
  decide

/-- C4 counterexample: after the first of three artist fetches for album
a completes, the log already holds the finalization signal although the
outstanding-request counter still stands at 2: _album_remove_request
signals finalization whenever the outstanding-area set is small, with no
regard to the counter. -/
theorem c4_counterexample :
    Event.finalize "a" ∈ (runTrace cfg0 worldInit c4trace).log
    ∧ dlookup (runTrace cfg0 worldInit c4trace).st.album_processing_count "a" = some 2 := by
  decide

/-- C5 counterexample: removing album a while an area fetch for q is
outstanding clears the albums entry and the counter entry but leaves the
outstanding-area set of the album in place ({q}), contradicting the
claim that all tracker state is dropped. -/
theorem c5_counterexample :
    dlookup (runTrace cfg0 worldInit c5trace).st.albums "a" = none
    ∧ dlookup (runTrace cfg0 worldInit c5trace).st.album_processing_count "a" = none
    ∧ dlookup (runTrace cfg0 worldInit c5trace).st.album_area_requests "a" = some ["q"] := by
  decide

/-- C6 counterexample: the area store already holds a record for X, and
parsing a direction-less part-of relation whose related area is X
overwrites that record through the unguarded fallback store: the area
store is not append-only per key. -/
theorem c6_counterexample :
    dlookup st6pre.area_cache "X" = some ⟨"p", "N", "c", "t", "tt"⟩
    ∧ dlookup (parse_area_relation st6pre "orig" relPartOfX "al" "ON" "OT" "OTT").1.area_cache "X"
        = some ⟨"orig", "XN", "", "T2", "TT2"⟩ := by
  decide

/-- C7 counterexample: write-back for album a writes the variable
"~artist_x_name" (a tilde-prefixed hidden variable), and no variable
named exactly "artist_x_name" exists on the destination, contradicting
the claimed exact pattern. -/
theorem c7_counterexample :
    dlookup (save_artist_metadata cfg0 st7pre "a").1.albums "a"
      = some ⟨["x"], [⟨[], [("~artist_x_name", "N")]⟩]⟩
    ∧ dlookup [("~artist_x_name", "N")] "artist_x_name" = none := by
  decide

/-! Frame and event-shape lemmas for _save_artist_metadata and
_album_remove_request. -/

theorem save_artist_metadata_count (cfg : Config) (st : PluginState) (albumId : String) :
    (save_artist_metadata cfg st albumId).1.album_processing_count = st.album_processing_count := by
  unfold save_artist_metadata
  repeat' split
  all_goals rfl

theorem save_artist_metadata_albums_lookup_none (cfg : Config) (st : PluginState)
    (albumId : String) (h : dlookup st.albums albumId = none) :
    save_artist_metadata cfg st albumId = (st, []) := by
  unfold save_artist_metadata
  repeat' split
  all_goals simp_all

theorem save_emits_iff (cfg : Config) (st : PluginState) (albumId : String) :
    (save_artist_metadata cfg st albumId).2 = [Event.writeBackRun albumId] ↔
      (counter_busy st albumId = false ∧ album_area_request_count st albumId = 0
       ∧ ∃ tgt, dlookup st.albums albumId = some tgt ∧ tgt.tracks ≠ []) := by
  unfold save_artist_metadata
  split
  · rename_i hbusy
    simp [hbusy]
  · rename_i hbusy
    split
    · rename_i hgt
      constructor
      · intro hx; simp at hx
      · rintro ⟨-, h0, -⟩; omega
    · rename_i hgt
      split
      · rename_i heq
        constructor
        · intro hx; simp at hx
        · rintro ⟨-, -, tgt, htgt, -⟩
          rw [heq] at htgt
          cases htgt
      · rename_i tgt heq
        split
        · rename_i hemp
          constructor
          · intro hx; simp at hx
          · rintro ⟨-, -, tgt2, htgt2, hne⟩
            rw [heq] at htgt2
            injection htgt2 with h2
            subst h2
            exact (hne (by simpa [List.isEmpty_iff] using hemp)).elim
        · rename_i hemp
          constructor
          · rintro -
            exact ⟨by simpa using hbusy, by omega, tgt, heq,
              by simpa [List.isEmpty_iff] using hemp⟩
          · rintro -; rfl

theorem save_snd_nil_or (cfg : Config) (st : PluginState) (albumId : String) :
    (save_artist_metadata cfg st albumId).2 = []
    ∨ (save_artist_metadata cfg st albumId).2 = [Event.writeBackRun albumId] := by
  unfold save_artist_metadata
  repeat' split
  all_goals simp

theorem decr_count_frames (st : PluginState) (albumId : String) :
    (decr_count st albumId).albums = st.albums
    ∧ (decr_count st albumId).album_area_requests = st.album_area_requests := by
  exact ⟨rfl, rfl⟩

theorem area_count_decr (st : PluginState) (albumId b : String) :
    album_area_request_count (decr_count st albumId) b = album_area_request_count st b := rfl

theorem album_remove_request_count (cfg : Config) (st : PluginState) (albumId : String) :
    (album_remove_request cfg st albumId).1.album_processing_count
      = dinsert albumId (ctr_pre st albumId - 1) st.album_processing_count := by
  unfold album_remove_request
  dsimp only
  split
  · rw [save_artist_metadata_count]; rfl
  · rfl

/-- C4 amended: after an end-request, finalization is signalled exactly
when the outstanding-area set of the album holds fewer than one element,
regardless of the counter and of registered destinations; the metadata
write loop runs exactly when additionally the decremented counter is zero
and at least one destination is registered.  (The original claim made
both conditional on the counter; the counterexample shows finalization is
not.) -/
theorem c4_amended (cfg : Config) (st : PluginState) (albumId : String) :
    (Event.finalize albumId ∈ (album_remove_request cfg st albumId).2 ↔
      album_area_request_count st albumId < 1)
    ∧ (Event.writeBackRun albumId ∈ (album_remove_request cfg st albumId).2 ↔
        (album_area_request_count st albumId = 0
         ∧ dlookup (album_remove_request cfg st albumId).1.album_processing_count albumId = some 0
         ∧ ∃ tgt, dlookup st.albums albumId = some tgt ∧ tgt.tracks ≠ [])) := by
  have hcnt : dlookup (album_remove_request cfg st albumId).1.album_processing_count albumId
      = some (ctr_pre st albumId - 1) := by
    rw [album_remove_request_count, dlookup_dinsert_self]
  rw [hcnt]
  have hbusyiff : counter_busy (decr_count st albumId) albumId = false ↔
      ctr_pre st albumId - 1 = 0 := by
    simp [counter_busy, decr_count, dlookup_dinsert_self]
  unfold album_remove_request
  dsimp only
  split
  · rename_i harea
    rw [area_count_decr] at harea
    constructor
    · simp [harea]
    · rcases save_snd_nil_or cfg (decr_count st albumId) albumId with hnil | hwb
      · rw [hnil]
        simp only [List.nil_append, List.mem_singleton]
        constructor
        · intro hx
          exact absurd hx (by simp)
        · rintro ⟨harea0, hzero, tgt, htgt, hne⟩
          have hemits : (save_artist_metadata cfg (decr_count st albumId) albumId).2
              = [Event.writeBackRun albumId] := by
            rw [save_emits_iff]
            refine ⟨?_, by rw [area_count_decr]; exact harea0, tgt,
              by rw [(decr_count_frames st albumId).1]; exact htgt, hne⟩
            rw [hbusyiff]
            injection hzero
          rw [hnil] at hemits
          cases hemits
      · rw [hwb]
        obtain ⟨hbusy, -, tgt, htgt, hne⟩ := (save_emits_iff cfg (decr_count st albumId) albumId).1 hwb
        rw [(decr_count_frames st albumId).1] at htgt
        simp only [List.cons_append, List.nil_append, List.mem_cons]
        constructor
        · rintro -
          refine ⟨by omega, ?_, tgt, htgt, hne⟩
          rw [hbusyiff.1 hbusy]
        · rintro -
          simp
  · rename_i harea
    rw [area_count_decr] at harea
    constructor
    · simp only [List.not_mem_nil, false_iff]
      omega
    · simp only [List.not_mem_nil, false_iff]
      rintro ⟨h0, -⟩
      omega

/-! C3: counter behaviour under begin/end-request call sequences. -/

theorem album_add_request_count (st : PluginState) (b : String) :
    (album_add_request st b).album_processing_count
      = dinsert b (dlookupInt st.album_processing_count b + 1) st.album_processing_count := by
  unfold album_add_request dlookupInt
  cases dlookup st.album_processing_count b <;> rfl

theorem c3_core (cfg : Config) (a : String) (ops : List CtrOp)
    (hok : ∀ n, endsFor (ops.take n) a ≤ beginsFor (ops.take n) a) :
    ∀ n, dlookupInt (applyCtrOps cfg initState (ops.take n)).album_processing_count a
        = (beginsFor (ops.take n) a : Int) - endsFor (ops.take n) a
      ∧ (dlookup (applyCtrOps cfg initState (ops.take n)).album_processing_count a = none →
          beginsFor (ops.take n) a = 0 ∧ endsFor (ops.take n) a = 0) := by
  intro n
  induction n with
  | zero =>
    simp [applyCtrOps, beginsFor, endsFor, dlookupInt, initState, dlookup]
  | succ n ih =>
    by_cases hlen : ops.length ≤ n
    · rw [List.take_of_length_le (le_trans hlen (Nat.le_succ n))]
      rw [List.take_of_length_le hlen] at ih
      exact ih
    · push_neg at hlen
      have htake : ops.take (n + 1) = ops.take n ++ [ops[n]] := by
        rw [List.take_succ, List.getElem?_eq_getElem hlen]
        rfl
      have happly : applyCtrOps cfg initState (ops.take (n + 1))
          = applyCtrOp cfg (applyCtrOps cfg initState (ops.take n)) ops[n] := by
        rw [htake]
        unfold applyCtrOps
        rw [List.foldl_append]
        rfl
      set st := applyCtrOps cfg initState (ops.take n) with hst
      cases hop : ops[n] with
      | beginReq b =>
        have hbeg : beginsFor (ops.take (n + 1)) a
            = beginsFor (ops.take n) a + (if b = a then 1 else 0) := by
          rw [htake, hop, beginsFor, List.filter_append, List.length_append]
          by_cases hba : b = a <;> simp [beginsFor, hba, List.filter_cons]
        have hend : endsFor (ops.take (n + 1)) a = endsFor (ops.take n) a := by
          rw [htake, hop, endsFor, List.filter_append, List.length_append]
          simp [endsFor, List.filter_cons]
        rw [happly, hop]
        have hcount : (applyCtrOp cfg st (CtrOp.beginReq b)).album_processing_count
            = dinsert b (dlookupInt st.album_processing_count b + 1) st.album_processing_count :=
          album_add_request_count st b
        rw [hcount, hbeg, hend]
        by_cases hba : b = a
        · subst hba
          rw [if_pos rfl]
          constructor
          · unfold dlookupInt
            rw [dlookup_dinsert_self]
            simp only [Option.getD_some]
            have h1 := ih.1
            unfold dlookupInt at h1
            push_cast
            omega
          · rw [dlookup_dinsert_self]
            intro hx
            cases hx
        · rw [if_neg hba]
          constructor
          · unfold dlookupInt
            rw [dlookup_dinsert_ne _ _ hba]
            have h1 := ih.1
            unfold dlookupInt at h1
            push_cast
            omega
          · rw [dlookup_dinsert_ne _ _ hba]
            intro hx
            have := ih.2 hx
            omega
      | endReq b =>
        have hbeg : beginsFor (ops.take (n + 1)) a = beginsFor (ops.take n) a := by
          rw [htake, hop, beginsFor, List.filter_append, List.length_append]
          simp [beginsFor, List.filter_cons]
        have hend : endsFor (ops.take (n + 1)) a
            = endsFor (ops.take n) a + (if b = a then 1 else 0) := by
          rw [htake, hop, endsFor, List.filter_append, List.length_append]
          by_cases hba : b = a <;> simp [endsFor, hba, List.filter_cons]
        rw [happly, hop]
        have hcount : (applyCtrOp cfg st (CtrOp.endReq b)).album_processing_count
            = dinsert b (ctr_pre st b - 1) st.album_processing_count :=
          album_remove_request_count cfg st b
        rw [hcount, hbeg, hend]
        by_cases hba : b = a
        · subst hba
          rw [if_pos rfl]
          cases hnone : dlookup st.album_processing_count b with
          | none =>
            exfalso
            have h0 := ih.2 hnone
            have h1 := hok (n + 1)
            rw [hbeg, hend, if_pos rfl] at h1
            omega
          | some c =>
            have hpre : ctr_pre st b = c := by
              unfold ctr_pre
              rw [hnone]
            constructor
            · unfold dlookupInt
              rw [dlookup_dinsert_self, hpre]
              simp only [Option.getD_some]
              have h1 := ih.1
              unfold dlookupInt at h1
              rw [hnone] at h1
              simp only [Option.getD_some] at h1
              push_cast
              omega
            · rw [dlookup_dinsert_self]
              intro hx
              cases hx
        · rw [if_neg hba]
          constructor
          · unfold dlookupInt
            rw [dlookup_dinsert_ne _ _ hba]
            have h1 := ih.1
            unfold dlookupInt at h1
            push_cast
            omega
          · rw [dlookup_dinsert_ne _ _ hba]
            intro hx
            have := ih.2 hx
            omega

/-- C3 amended: an end-request with the counter entry absent first
creates it at value 1 and decrements to 0; for call sequences in which
every prefix holds at least as many begin-requests as end-requests for
the album, the counter of the album never becomes negative.  (Under
arbitrary interleaving it can go negative; see the counterexample.) -/
theorem c3_amended (cfg : Config) (a : String) (ops : List CtrOp)
    (hok : ∀ n, endsFor (ops.take n) a ≤ beginsFor (ops.take n) a) :
    (∀ n, 0 ≤ dlookupInt (applyCtrOps cfg initState (ops.take n)).album_processing_count a)
    ∧ (∀ st : PluginState, dlookup st.album_processing_count a = none →
        dlookup (album_remove_request cfg st a).1.album_processing_count a = some 0) := by
  constructor
  · intro n
    rw [(c3_core cfg a ops hok n).1]
    have := hok n
    omega
  · intro st hnone
    rw [album_remove_request_count, dlookup_dinsert_self]
    unfold ctr_pre
    rw [hnone]
    rfl

/-- C3 witness: a balanced begin/end pair leaves the counter
non-negative. -/
theorem c3_amended_witness :
    0 ≤ dlookupInt (applyCtrOps cfg0 initState
        ([CtrOp.beginReq "w3", CtrOp.endReq "w3"].take 2)).album_processing_count "w3" := by
  have hok : ∀ n, endsFor ([CtrOp.beginReq "w3", CtrOp.endReq "w3"].take n) "w3"
      ≤ beginsFor ([CtrOp.beginReq "w3", CtrOp.endReq "w3"].take n) "w3" := by
    intro n
    match n with
    | 0 => decide
    | 1 => decide
    | (m + 2) => rw [List.take_of_length_le (by simp)]; decide
  exact (c3_amended cfg0 "w3" [CtrOp.beginReq "w3", CtrOp.endReq "w3"] hok).1 2

/-! C6: append-only behaviour of the area store under relation parsing. -/

/-- C6 amended: every store site of _parse_area_relation preserves an
existing record (the retroactive backward store and both _add_country
sites check absence first), except the fallback branch, which stores the
related area with parent = original area id unconditionally, overwriting
any existing record under the related identifier. -/
theorem c6_amended (st : PluginState) (area_id albumId area_name area_type area_type_text k : String)
    (rel : RelDoc) (r : Area)
    (h : dlookup st.area_cache k = some r) :
    dlookup (parse_area_relation st area_id rel albumId area_name area_type area_type_text).1.area_cache k = some r
    ∨ (relFallback rel = true
       ∧ ∃ adoc, rel.area = some adoc ∧ k = (parse_area adoc).pid
         ∧ dlookup (parse_area_relation st area_id rel albumId area_name area_type area_type_text).1.area_cache k
             = some ⟨area_id, (parse_area adoc).pname, "", (parse_area adoc).ptype, (parse_area adoc).ptype_text⟩) := by
  rcases hta : rel.type_id with _ | tid
  · left
    unfold parse_area_relation
    rw [hta]
    exact h
  · rcases har : rel.area with _ | adoc
    · left
      unfold parse_area_relation
      rw [hta, har]
      exact h
    · by_cases htid : tid = RELATIONSHIP_TYPE_PART_OF
      · subst htid
        by_cases hpid : (parse_area adoc).pid = ""
        · left
          unfold parse_area_relation
          rw [hta, har]
          simp only [ne_eq, not_true_eq_false, if_false, reduceIte, hpid]
          exact h
        · by_cases hdir : rel.direction = some "backward"
          · left
            unfold parse_area_relation
            rw [hta, har]
            simp only [ne_eq, not_true_eq_false, if_false, reduceIte, hpid, hdir, if_true]
            cases haid : dlookup st.area_cache area_id with
            | some t =>
              simp only [haid]
              split
              · exact add_country_preserves_present _ _ h
              · split
                · rw [get_area_info_area_cache]
                  exact h
                · exact h
            | none =>
              have hk : area_id ≠ k := by
                intro hx
                rw [hx] at haid
                rw [haid] at h
                cases h
              simp only [haid]
              split
              · exact add_country_preserves_present _ _
                  (by rw [dlookup_dinsert_ne _ _ hk]; exact h)
              · split
                · rw [get_area_info_area_cache]
                  rw [dlookup_dinsert_ne _ _ hk]
                  exact h
                · rw [dlookup_dinsert_ne _ _ hk]
                  exact h
          · by_cases hfc : rel.direction = some "forward" ∧ (parse_area adoc).ptype = AREA_TYPE_COUNTRY
            · left
              unfold parse_area_relation
              rw [hta, har]
              simp only [ne_eq, not_true_eq_false, if_false, reduceIte, hpid, hdir, hfc, if_true]
              exact add_country_preserves_present _ _ h
            · have hfall : relFallback rel = true := by
                unfold relFallback
                rw [hta, har]
                simp only [bne_iff_ne, ne_eq, not_true_eq_false, if_false, reduceIte]
                rw [if_neg (by simpa using hpid)]
                rw [if_neg (by simpa using hdir)]
                rw [if_neg (by
                  intro hx
                  rw [Bool.and_eq_true, beq_iff_eq, beq_iff_eq] at hx
                  exact hfc hx)]
              by_cases hkp : k = (parse_area adoc).pid
              · right
                refine ⟨hfall, adoc, by simp [har], hkp, ?_⟩
                unfold parse_area_relation
                rw [hta, har]
                simp only [ne_eq, not_true_eq_false, if_false, reduceIte, hpid, hdir, hfc, if_true]
                rw [hkp, dlookup_dinsert_self]
              · left
                unfold parse_area_relation
                rw [hta, har]
                simp only [ne_eq, not_true_eq_false, if_false, reduceIte, hpid, hdir, hfc, if_true]
                rw [dlookup_dinsert_ne _ _ (fun hx => hkp hx.symm)]
                exact h
      · left
        unfold parse_area_relation
        rw [hta, har]
        dsimp only
        rw [if_pos htid]
        exact h

/-- C6 witness: a concrete present record is preserved or rewritten by
the fallback branch exactly as the amended claim states (here the
fallback branch applies to the identifier X). -/
theorem c6_amended_witness :
    dlookup (parse_area_relation st6pre "orig" relPartOfX "al" "ON" "OT" "OTT").1.area_cache "X"
      = some ⟨"p", "N", "c", "t", "tt"⟩
    ∨ (relFallback relPartOfX = true
       ∧ ∃ adoc, relPartOfX.area = some adoc ∧ "X" = (parse_area adoc).pid
         ∧ dlookup (parse_area_relation st6pre "orig" relPartOfX "al" "ON" "OT" "OTT").1.area_cache "X"
             = some ⟨"orig", (parse_area adoc).pname, "", (parse_area adoc).ptype, (parse_area adoc).ptype_text⟩) :=
  c6_amended st6pre "orig" "al" "ON" "OT" "OTT" "X" relPartOfX ⟨"p", "N", "c", "t", "tt"⟩ (by decide)

/-! C5: state clearing on album removal and late completions. -/

theorem get_area_info_albums (st : PluginState) (a al : String) :
    (get_area_info st a al).1.albums = st.albums := by
  unfold get_area_info album_add_request add_album_area_request
  rfl

theorem add_country_albums (st : PluginState) (p : ParsedArea) :
    (add_country st p).albums = st.albums := by
  unfold add_country
  split <;> rfl

theorem parse_area_relation_albums (st : PluginState) (area_id albumId an aty att : String)
    (rel : RelDoc) :
    (parse_area_relation st area_id rel albumId an aty att).1.albums = st.albums := by
  unfold parse_area_relation add_country get_area_info album_add_request add_album_area_request
  repeat' (first | split | dsimp only)
  all_goals rfl

theorem rel_loop_albums (albumId area_id an aty att : String) :
    ∀ (rels : List RelDoc) (st : PluginState),
      (rel_loop albumId area_id an aty att rels st).1.albums = st.albums := by
  intro rels
  induction rels with
  | nil => intro st; rfl
  | cons rel rest ih =>
    intro st
    show (rel_loop albumId area_id an aty att rest
        (parse_area_relation st area_id rel albumId an aty att).1).1.albums = st.albums
    rw [ih, parse_area_relation_albums]

theorem remove_album_area_request_albums (st : PluginState) (albumId areaId : String) :
    (remove_album_area_request st albumId areaId).albums = st.albums := by
  unfold remove_album_area_request
  split <;> rfl

theorem process_area_field_albums (albumId k : String) (v : Option String)
    (acc : PluginState × List Event × List (String × String)) :
    (process_area_field albumId k v acc).1.albums = acc.1.albums := by
  unfold process_area_field
  repeat' split
  all_goals (first | rfl | rw [get_area_info_albums])

theorem artist_body_albums (st : PluginState) (doc : ArtistDoc) (artist albumId : String) :
    (artist_body st doc artist albumId).1.albums = st.albums := by
  unfold artist_body
  dsimp only
  rw [show ∀ x : PluginState × List Event × List (String × String),
      ({ x.1 with artist_cache := dinsert artist x.2.2 x.1.artist_cache } : PluginState).albums
        = x.1.albums from fun x => rfl]
  rw [process_area_field_albums, process_area_field_albums, process_area_field_albums]

theorem wbCnt_cons_fetchArea (i al x : String) (l : List Event) :
    wbCnt (Event.fetchArea i al :: l) x = wbCnt l x := by
  simp [wbCnt, List.filter_cons]

theorem get_area_info_wb (st : PluginState) (a al x : String) :
    wbCnt (get_area_info st a al).2 x = 0 := rfl

theorem parse_area_relation_wb (st : PluginState) (area_id albumId an aty att x : String)
    (rel : RelDoc) :
    wbCnt (parse_area_relation st area_id rel albumId an aty att).2 x = 0 := by
  unfold parse_area_relation get_area_info
  repeat' (first | split | dsimp only)
  all_goals rfl

theorem rel_loop_wb (albumId area_id an aty att x : String) :
    ∀ (rels : List RelDoc) (st : PluginState),
      wbCnt (rel_loop albumId area_id an aty att rels st).2 x = 0 := by
  intro rels
  induction rels with
  | nil => intro st; rfl
  | cons rel rest ih =>
    intro st
    show wbCnt ((parse_area_relation st area_id rel albumId an aty att).2
        ++ (rel_loop albumId area_id an aty att rest
              (parse_area_relation st area_id rel albumId an aty att).1).2) x = 0
    rw [wbCnt_append, parse_area_relation_wb, ih]

theorem process_area_field_wb (albumId k : String) (v : Option String)
    (acc : PluginState × List Event × List (String × String)) (x : String) :
    wbCnt (process_area_field albumId k v acc).2.1 x = wbCnt acc.2.1 x := by
  unfold process_area_field get_area_info
  repeat' split
  all_goals (first | rfl | (rw [wbCnt_append]; simp [wbCnt]))

theorem artist_body_wb (st : PluginState) (doc : ArtistDoc) (artist albumId x : String) :
    wbCnt (artist_body st doc artist albumId).2 x = 0 := by
  unfold artist_body
  dsimp only
  rw [process_area_field_wb, process_area_field_wb, process_area_field_wb]
  rfl

theorem album_remove_request_wb_of_no_albums (cfg : Config) (st : PluginState)
    (albumId x : String) (h : dlookup st.albums albumId = none) :
    wbCnt (album_remove_request cfg st albumId).2 x = 0 := by
  unfold album_remove_request
  dsimp only
  split
  · rw [save_artist_metadata_albums_lookup_none cfg (decr_count st albumId) albumId h]
    rfl
  · rfl

/-- C5 amended: removal drops the albums entry and the counter entry but
leaves the per-album outstanding-area set untouched; a completion
callback (artist or area) for an album with no albums entry runs to
completion and performs no metadata write-back. -/
theorem c5_amended (cfg : Config) (st st2 : PluginState) (albumId artist area : String)
    (errA errR : Bool) (adoc : ArtistDoc) (rdoc : AreaDocTop)
    (h : dlookup st2.albums albumId = none) :
    dlookup (remove_album st albumId).albums albumId = none
    ∧ dlookup (remove_album st albumId).album_processing_count albumId = none
    ∧ (remove_album st albumId).album_area_requests = st.album_area_requests
    ∧ wbCnt (artist_handler cfg st2 errA adoc artist albumId).2 albumId = 0
    ∧ wbCnt (area_handler cfg st2 errR rdoc area albumId).2 albumId = 0 := by
  refine ⟨?_, ?_, rfl, ?_, ?_⟩
  · show dlookup (dpop albumId st.albums) albumId = none
    rw [dlookup_dpop]
    simp
  · show dlookup (dpop albumId st.album_processing_count) albumId = none
    rw [dlookup_dpop]
    simp
  · unfold artist_handler
    dsimp only
    cases errA with
    | true =>
      simp only [if_true]
      show wbCnt ([] ++ (album_remove_request cfg st2 albumId).2) albumId = 0
      rw [wbCnt_append, album_remove_request_wb_of_no_albums cfg st2 albumId albumId h]
      rfl
    | false =>
      simp only [if_false, Bool.false_eq_true]
      rw [wbCnt_append, artist_body_wb]
      rw [album_remove_request_wb_of_no_albums cfg _ albumId albumId
        (by rw [artist_body_albums]; exact h)]
  · unfold area_handler
    dsimp only
    rw [wbCnt_append]
    cases errR with
    | true =>
      simp only [if_true]
      have halb : dlookup (remove_album_area_request st2 albumId area).albums albumId = none := by
        rw [remove_album_area_request_albums]; exact h
      rw [album_remove_request_wb_of_no_albums cfg _ albumId albumId halb]
      rfl
    | false =>
      simp only [if_false, Bool.false_eq_true]
      split
      · rw [album_remove_request_wb_of_no_albums cfg _ albumId albumId
          (by rw [remove_album_area_request_albums]; split <;> exact h)]
        rfl
      · rw [rel_loop_wb]
        rw [album_remove_request_wb_of_no_albums cfg _ albumId albumId
          (by rw [remove_album_area_request_albums, rel_loop_albums]; split <;> exact h)]

/-- C5 witness: a concrete removal and a concrete late artist completion
for an album with no registered state. -/
theorem c5_amended_witness :
    dlookup (remove_album st6pre "w5").albums "w5" = none
    ∧ dlookup (remove_album st6pre "w5").album_processing_count "w5" = none
    ∧ (remove_album st6pre "w5").album_area_requests = st6pre.album_area_requests
    ∧ wbCnt (artist_handler cfg0 initState false (docArtistName "W") "wx" "w5").2 "w5" = 0
    ∧ wbCnt (area_handler cfg0 initState false docAreaY "Y" "w5").2 "w5" = 0 :=
  c5_amended cfg0 st6pre initState "w5" "wx" "Y" false false (docArtistName "W") docAreaY (by decide)

/-! C7: the write-back naming rule. -/

theorem dlookup_applyPairs_of_absent (k : String) :
    ∀ (ps : List (String × String)) (t : List (String × String)),
      (∀ q ∈ ps, q.1 ≠ k) → dlookup (applyPairs ps t) k = dlookup t k := by
  intro ps
  induction ps with
  | nil => intro t _; rfl
  | cons p rest ih =>
    intro t h
    show dlookup (applyPairs rest (setKV p.1 p.2 t)) k = dlookup t k
    rw [ih (setKV p.1 p.2 t) (fun q hq => h q (List.mem_cons_of_mem p hq))]
    exact dlookup_dinsert_ne _ _ (h p (List.mem_cons_self p rest))

theorem dlookup_applyPairs_of_unique (k v : String) :
    ∀ (ps : List (String × String)) (t : List (String × String)),
      (k, v) ∈ ps → (ps.filter fun p => p.1 == k).length = 1 →
      dlookup (applyPairs ps t) k = some v := by
  intro ps
  induction ps with
  | nil => intro t hmem _; cases hmem
  | cons p rest ih =>
    intro t hmem huniq
    by_cases hk : p.1 = k
    · have hflt : (rest.filter fun q => q.1 == k).length = 0 := by
        rw [List.filter_cons] at huniq
        simp only [hk, beq_self_eq_true, if_pos, List.length_cons] at huniq
        omega
      have habs : ∀ q ∈ rest, q.1 ≠ k := by
        intro q hq hqk
        have : q ∈ rest.filter fun q => q.1 == k := by
          rw [List.mem_filter]
          exact ⟨hq, by simp [hqk]⟩
        rw [List.length_eq_zero] at hflt
        rw [hflt] at this
        cases this
      have hpv : p.2 = v := by
        rcases List.mem_cons.1 hmem with heq | hrest
        · rw [← heq]
        · exact absurd rfl (habs (k, v) hrest)
      show dlookup (applyPairs rest (setKV p.1 p.2 t)) k = some v
      rw [dlookup_applyPairs_of_absent k rest _ habs]
      unfold setKV
      rw [← hk, dlookup_dinsert_self, hpv]
    · have hmem' : (k, v) ∈ rest := by
        rcases List.mem_cons.1 hmem with heq | hrest
        · exact absurd (by rw [← heq]) hk
        · exact hrest
      have huniq' : (rest.filter fun q => q.1 == k).length = 1 := by
        rw [List.filter_cons] at huniq
        simpa [hk] using huniq
      exact ih (setKV p.1 p.2 t) hmem' huniq'

theorem samPairs_mem (cfg : Config) (st : PluginState) (artistId k v : String)
    (info : List (String × String)) (hkv : (k, v) ∈ info)
    (hexcl : excludedField k = false) :
    (mkItemKey artistId k, v) ∈ samPairs cfg st artistId info := by
  unfold samPairs
  rw [List.mem_flatMap]
  refine ⟨(k, v), hkv, ?_⟩
  simp [hexcl]

theorem trackWritePairs_mem (cfg : Config) (st : PluginState)
    (albumArtists : List String) (item : MetadataPair) (artist k v : String)
    (info : List (String × String))
    (hartist : artist ∈ sunion albumArtists item.artists)
    (hcache : dlookup st.artist_cache artist = some info)
    (hkv : (k, v) ∈ info) (hexcl : excludedField k = false) :
    (mkItemKey artist k, v) ∈ trackWritePairs cfg st albumArtists item := by
  unfold trackWritePairs
  rw [List.mem_flatMap]
  refine ⟨artist, hartist, ?_⟩
  rw [hcache]
  exact samPairs_mem cfg st artist k v info hkv hexcl

/-- C7 amended: write-back writes, for each artist referenced by a
destination and present in the store and for each stored field outside
the area set, a destination variable named with the tilde-prefixed
pattern ~artist_<artist_id>_<field> (hyphens of the field replaced by
underscores) holding the raw stored value; the value is found under that
name on the written destination provided the name is generated only once
for the destination (true for real MusicBrainz identifiers, which
contain no underscore-joined collisions). -/
theorem c7_amended (cfg : Config) (st : PluginState) (albumId : String) (tgt : AlbumTarget)
    (i : Nat) (item : MetadataPair) (artist k v : String) (info : List (String × String))
    (hbusy : counter_busy st albumId = false)
    (harea : album_area_request_count st albumId = 0)
    (htgt : dlookup st.albums albumId = some tgt)
    (hitem : tgt.tracks.get? i = some item)
    (hartist : artist ∈ sunion tgt.album_artists item.artists)
    (hcache : dlookup st.artist_cache artist = some info)
    (hkv : (k, v) ∈ info)
    (hexcl : excludedField k = false)
    (huniq : ((trackWritePairs cfg st tgt.album_artists item).filter
        (fun p => p.1 == mkItemKey artist k)).length = 1) :
    ∃ tgt', dlookup (save_artist_metadata cfg st albumId).1.albums albumId = some tgt'
      ∧ ∃ item', tgt'.tracks.get? i = some item'
          ∧ dlookup item'.target (mkItemKey artist k) = some v := by
  have hne : tgt.tracks.isEmpty = false := by
    cases htr : tgt.tracks with
    | nil => rw [htr] at hitem; cases i <;> cases hitem
    | cons _ _ => rfl
  unfold save_artist_metadata
  rw [hbusy, if_neg (by simp), if_neg (by omega), htgt]
  simp only [hne, Bool.false_eq_true, if_false, reduceIte]
  refine ⟨_, dlookup_dinsert_self _ _ _, ?_⟩
  refine ⟨{ item with target := applyPairs (trackWritePairs cfg st tgt.album_artists item) item.target }, ?_, ?_⟩
  · show (tgt.tracks.map _).get? i = _
    have hitem' : tgt.tracks[i]? = some item := by
      rw [← List.get?_eq_getElem?]
      exact hitem
    simp only [List.get?_eq_getElem?, List.getElem?_map]
    rw [hitem']
    rfl
  · exact dlookup_applyPairs_of_unique (mkItemKey artist k) v _ item.target
      (trackWritePairs_mem cfg st tgt.album_artists item artist k v info hartist hcache hkv hexcl)
      huniq

/-- C7 witness: the concrete state st7pre with artist x and field name. -/
theorem c7_amended_witness :
    ∃ tgt', dlookup (save_artist_metadata cfg0 st7pre "a").1.albums "a" = some tgt'
      ∧ ∃ item', tgt'.tracks.get? 0 = some item'
          ∧ dlookup item'.target (mkItemKey "x" "name") = some "N" :=
  c7_amended cfg0 st7pre "a" ⟨["x"], [⟨[], []⟩]⟩ 0 ⟨[], []⟩ "x" "name" "N" [("name", "N")]
    (by decide) (by decide) (by decide) (by decide) (by decide) (by decide)
    (by decide) (by decide) (by decide)

/-! C1: dedup machinery — basic contract lemmas. -/

theorem contains_sadd_iff (x y : String) (s : List String) :
    (sadd x s).contains y = true ↔ (x = y ∨ s.contains y = true) := by
  unfold sadd
  split
  · rename_i hx
    constructor
    · intro h
      exact Or.inr h
    · rintro (rfl | h)
      · exact hx
      · exact h
  · rename_i hx
    show (x :: s).contains y = true ↔ _
    rw [List.contains_cons]
    simp only [Bool.or_eq_true, beq_iff_eq]
    constructor
    · rintro (h | h)
      · exact Or.inl h.symm
      · exact Or.inr h
    · rintro (h | h)
      · exact Or.inl h.symm
      · exact Or.inr h

theorem aCnt_nil (id : String) : aCnt [] id = 0 := rfl

theorem rCnt_nil (id : String) : rCnt [] id = 0 := rfl

theorem ReqOK_of_silent (s s' : PluginState) (ev : List Event)
    (ha : s'.artist_requests = s.artist_requests)
    (hr : ∀ id, s.area_requests.contains id = true → s'.area_requests.contains id = true)
    (hca : ∀ id, aCnt ev id = 0) (hcr : ∀ id, rCnt ev id = 0) :
    ReqOK s s' ev := by
  refine ⟨⟨fun id h => by rw [ha]; exact h, fun id => ?_⟩,
    ⟨hr, fun id => ⟨by rw [hcr]; omega, fun _ => hcr id, fun h => ?_⟩⟩⟩
  · rw [hca, ha]
    by_cases h : s.artist_requests.contains id = true <;> simp [h]
  · rw [hcr id] at h
    omega

theorem ReqOK_nil (s : PluginState) : ReqOK s s [] :=
  ReqOK_of_silent s s [] rfl (fun _ h => h) (fun _ => rfl) (fun _ => rfl)

theorem ReqOK_comp {s1 s2 s3 : PluginState} {e1 e2 : List Event}
    (h1 : ReqOK s1 s2 e1) (h2 : ReqOK s2 s3 e2) : ReqOK s1 s3 (e1 ++ e2) := by
  obtain ⟨⟨a1m, a1c⟩, ⟨r1m, r1c⟩⟩ := h1
  obtain ⟨⟨a2m, a2c⟩, ⟨r2m, r2c⟩⟩ := h2
  refine ⟨⟨fun id h => a2m id (a1m id h), fun id => ?_⟩,
    ⟨fun id h => r2m id (r1m id h), fun id => ⟨?_, ?_, ?_⟩⟩⟩
  · rw [aCnt_append, a1c id, a2c id]
    by_cases h3 : s3.artist_requests.contains id = true
    · by_cases hA : s1.artist_requests.contains id = true
      · have hB := a1m id hA
        simp only [h3, hA, hB, Bool.true_eq_false, Bool.false_eq_true, and_false, false_and,
          and_true, true_and, if_true, if_false, reduceIte, Nat.add_zero, Nat.zero_add]
      · have hA' : s1.artist_requests.contains id = false := by simpa using hA
        by_cases hB : s2.artist_requests.contains id = true
        · simp only [h3, hA', hB, Bool.true_eq_false, Bool.false_eq_true, and_false, false_and,
            and_true, true_and, if_true, if_false, reduceIte, Nat.add_zero, Nat.zero_add]
        · have hB' : s2.artist_requests.contains id = false := by simpa using hB
          simp only [h3, hA', hB', Bool.true_eq_false, Bool.false_eq_true, and_false, false_and,
            and_true, true_and, if_true, if_false, reduceIte, Nat.add_zero, Nat.zero_add]
    · have h3' : s3.artist_requests.contains id = false := by simpa using h3
      have hB' : s2.artist_requests.contains id = false := by
        by_cases hB : s2.artist_requests.contains id = true
        · exact absurd (a2m id hB) (by rw [h3']; simp)
        · simpa using hB
      have hA' : s1.artist_requests.contains id = false := by
        by_cases hA : s1.artist_requests.contains id = true
        · exact absurd (a1m id hA) (by rw [hB']; simp)
        · simpa using hA
      simp only [h3', hA', hB', Bool.true_eq_false, Bool.false_eq_true, and_false, false_and,
        and_true, true_and, if_true, if_false, reduceIte, Nat.add_zero, Nat.zero_add]
  · rw [rCnt_append]
    rcases Nat.eq_zero_or_pos (rCnt e1 id) with hz | hp
    · have := (r2c id).1
      omega
    · have hmem := (r1c id).2.2 (by omega)
      have := (r2c id).2.1 hmem
      have := (r1c id).1
      omega
  · intro h
    rw [rCnt_append, (r1c id).2.1 h, (r2c id).2.1 (r1m id h)]
  · intro h
    rw [rCnt_append] at h
    rcases Nat.eq_zero_or_pos (rCnt e1 id) with hz | hp
    · exact (r2c id).2.2 (by omega)
    · exact r2m id ((r1c id).2.2 (by omega))

theorem ReqOK_marker (s : PluginState) (i a : String) :
    ReqOK s s [Event.artistCompleted i a] :=
  ReqOK_of_silent s s _ rfl (fun _ h => h) (fun _ => rfl) (fun _ => rfl)

theorem ReqOK_marker_area (s : PluginState) (i a : String) :
    ReqOK s s [Event.areaCompleted i a] :=
  ReqOK_of_silent s s _ rfl (fun _ h => h) (fun _ => rfl) (fun _ => rfl)

theorem ReqOK_pre {s1 s2 s3 : PluginState} {ev : List Event}
    (h1 : ReqOK s1 s2 []) (h2 : ReqOK s2 s3 ev) : ReqOK s1 s3 ev := by
  have h := ReqOK_comp h1 h2
  rwa [List.nil_append] at h

theorem ReqOK_post {s1 s2 s3 : PluginState} {ev : List Event}
    (h1 : ReqOK s1 s2 ev) (h2 : ReqOK s2 s3 []) : ReqOK s1 s3 ev := by
  have h := ReqOK_comp h1 h2
  rwa [List.append_nil] at h

theorem ReqOK_silent_state (s s' : PluginState)
    (ha : s'.artist_requests = s.artist_requests)
    (hr : s'.area_requests = s.area_requests) : ReqOK s s' [] :=
  ReqOK_of_silent s s' [] ha (fun id h => by rw [hr]; exact h) (fun _ => rfl) (fun _ => rfl)

theorem ArtistReqContract_of_silent (s s' : PluginState) (ev : List Event)
    (ha : s'.artist_requests = s.artist_requests)
    (hca : ∀ id, aCnt ev id = 0) : ArtistReqContract s s' ev := by
  refine ⟨fun id h => by rw [ha]; exact h, fun id => ?_⟩
  rw [hca, ha]
  by_cases h : s.artist_requests.contains id = true <;> simp [h]

theorem AreaReqContract_of_silent (s s' : PluginState) (ev : List Event)
    (hr : ∀ id, s.area_requests.contains id = true → s'.area_requests.contains id = true)
    (hcr : ∀ id, rCnt ev id = 0) : AreaReqContract s s' ev := by
  refine ⟨hr, fun id => ⟨by rw [hcr]; omega, fun _ => hcr id, fun h => ?_⟩⟩
  rw [hcr id] at h
  omega

theorem contains_sadd_ne {x y : String} (s : List String) (h : x ≠ y) :
    (sadd x s).contains y = s.contains y := by
  unfold sadd
  split
  · rfl
  · rw [List.contains_cons]
    have hbx : (y == x) = false := by
      rw [beq_eq_false_iff_ne]
      exact fun hx => h hx.symm
    rw [hbx, Bool.false_or]

theorem aCnt_fetchArtist_self (i a : String) : aCnt [Event.fetchArtist i a] i = 1 := by
  simp [aCnt]

theorem aCnt_fetchArtist_ne {i id : String} (a : String) (h : i ≠ id) :
    aCnt [Event.fetchArtist i a] id = 0 := by
  simp [aCnt, h]

theorem rCnt_fetchArea_self (i a : String) : rCnt [Event.fetchArea i a] i = 1 := by
  simp [rCnt]

theorem rCnt_fetchArea_ne {i id : String} (a : String) (h : i ≠ id) :
    rCnt [Event.fetchArea i a] id = 0 := by
  simp [rCnt, h]

theorem save_requests (cfg : Config) (st : PluginState) (albumId : String) :
    (save_artist_metadata cfg st albumId).1.artist_requests = st.artist_requests
    ∧ (save_artist_metadata cfg st albumId).1.area_requests = st.area_requests := by
  unfold save_artist_metadata
  repeat' split
  all_goals exact ⟨rfl, rfl⟩

theorem save_ReqOK (cfg : Config) (st : PluginState) (albumId : String) :
    ReqOK st (save_artist_metadata cfg st albumId).1 (save_artist_metadata cfg st albumId).2 := by
  refine ReqOK_of_silent _ _ _ (save_requests cfg st albumId).1
    (fun id h => by rw [(save_requests cfg st albumId).2]; exact h) ?_ ?_ <;>
  · intro id
    rcases save_snd_nil_or cfg st albumId with hnil | hwb
    · rw [hnil]; rfl
    · rw [hwb]; rfl

theorem album_remove_request_requests (cfg : Config) (st : PluginState) (albumId : String) :
    (album_remove_request cfg st albumId).1.artist_requests = st.artist_requests
    ∧ (album_remove_request cfg st albumId).1.area_requests = st.area_requests := by
  unfold album_remove_request
  dsimp only
  split
  · exact ⟨(save_requests cfg (decr_count st albumId) albumId).1,
      (save_requests cfg (decr_count st albumId) albumId).2⟩
  · exact ⟨rfl, rfl⟩

theorem album_remove_request_ReqOK (cfg : Config) (st : PluginState) (albumId : String) :
    ReqOK st (album_remove_request cfg st albumId).1 (album_remove_request cfg st albumId).2 := by
  refine ReqOK_of_silent _ _ _ (album_remove_request_requests cfg st albumId).1
    (fun id h => by rw [(album_remove_request_requests cfg st albumId).2]; exact h) ?_ ?_ <;>
  · intro id
    unfold album_remove_request
    dsimp only
    split
    · rcases save_snd_nil_or cfg (decr_count st albumId) albumId with hnil | hwb
      · rw [hnil]; rfl
      · rw [hwb]; rfl
    · rfl

theorem artist_processing_loop_ReqOK (albumId : String) :
    ∀ (ids : List String) (st : PluginState),
      ReqOK st (artist_processing_loop albumId ids st).1 (artist_processing_loop albumId ids st).2 := by
  intro ids
  induction ids with
  | nil => intro st; exact ReqOK_nil st
  | cons tid rest ih =>
    intro st
    by_cases h : st.artist_requests.contains tid = true
    · unfold artist_processing_loop
      rw [if_pos h]
      exact ih st
    · have h' : st.artist_requests.contains tid = false := by simpa using h
      unfold artist_processing_loop
      rw [if_neg h]
      simp only [get_artist_info]
      refine ReqOK_comp ?_ (ih _)
      refine ⟨⟨?_, ?_⟩, AreaReqContract_of_silent _ _ _ (fun id hm => hm) (fun id => rfl)⟩
      · intro id hm
        show (sadd tid st.artist_requests).contains id = true
        rw [contains_sadd_iff]
        exact Or.inr hm
      · intro id
        by_cases hid : tid = id
        · subst hid
          rw [aCnt_fetchArtist_self]
          rw [if_pos ⟨show (sadd tid st.artist_requests).contains tid = true by
            rw [contains_sadd_iff]; exact Or.inl rfl, h'⟩]
        · rw [aCnt_fetchArtist_ne _ hid]
          rw [if_neg]
          rintro ⟨hpost, hpre⟩
          have hpost' : (sadd tid st.artist_requests).contains id = true := hpost
          rw [contains_sadd_ne _ hid] at hpost'
          rw [hpost'] at hpre
          cases hpre

theorem artist_processing_loop_covers (albumId : String) :
    ∀ (ids : List String) (st : PluginState) (id : String), id ∈ ids →
      ((artist_processing_loop albumId ids st).1).artist_requests.contains id = true := by
  intro ids
  induction ids with
  | nil => intro st id h; cases h
  | cons tid rest ih =>
    intro st id hid
    rcases List.mem_cons.1 hid with rfl | hrest
    · by_cases h : st.artist_requests.contains id = true
      · unfold artist_processing_loop
        rw [if_pos h]
        exact ((artist_processing_loop_ReqOK albumId rest st).1).1 id h
      · unfold artist_processing_loop
        rw [if_neg h]
        dsimp only
        refine ((artist_processing_loop_ReqOK albumId rest _).1).1 id ?_
        show (sadd id st.artist_requests).contains id = true
        rw [contains_sadd_iff]
        exact Or.inl rfl
    · by_cases h : st.artist_requests.contains tid = true
      · unfold artist_processing_loop
        rw [if_pos h]
        exact ih st id hrest
      · unfold artist_processing_loop
        rw [if_neg h]
        dsimp only
        exact ih _ id hrest

theorem add_target_requests (st : PluginState) (albumId : String) (artists : List String)
    (t : List (String × String)) :
    (add_target st albumId artists t).artist_requests = st.artist_requests
    ∧ (add_target st albumId artists t).area_requests = st.area_requests := by
  unfold add_target make_empty_target
  repeat' (first | split | dsimp only)
  all_goals exact ⟨rfl, rfl⟩

theorem artist_processing_ReqOK (cfg : Config) (st : PluginState) (artists : List String)
    (albumId : String) :
    ReqOK st (artist_processing cfg st artists albumId).1 (artist_processing cfg st artists albumId).2 := by
  unfold artist_processing
  dsimp only
  refine ReqOK_comp (artist_processing_loop_ReqOK albumId artists st) ?_
  exact ReqOK_pre
    (ReqOK_silent_state _ _ (add_target_requests _ albumId artists []).1
      (add_target_requests _ albumId artists []).2)
    (save_ReqOK cfg _ albumId)

theorem make_album_vars_ReqOK (cfg : Config) (st : PluginState) (albumId : String)
    (artists : List String) :
    ReqOK st (make_album_vars cfg st albumId artists).1 (make_album_vars cfg st albumId artists).2 := by
  unfold make_album_vars make_empty_target
  repeat' (first | split | dsimp only)
  all_goals
    refine ReqOK_pre ?_ (artist_processing_ReqOK cfg _ artists albumId)
  all_goals exact ReqOK_silent_state _ _ rfl rfl

theorem ReqOK_grow (s s' : PluginState) (x : String)
    (ha : s'.artist_requests = s.artist_requests)
    (hr : s'.area_requests = sadd x s.area_requests) : ReqOK s s' [] :=
  ReqOK_of_silent s s' [] ha
    (fun id h => by rw [hr, contains_sadd_iff]; exact Or.inr h)
    (fun _ => rfl) (fun _ => rfl)

theorem get_area_info_ReqOK (st : PluginState) (areaId albumId : String)
    (h : st.area_requests.contains areaId = false) :
    ReqOK st (get_area_info st areaId albumId).1 (get_area_info st areaId albumId).2 := by
  refine ⟨ArtistReqContract_of_silent _ _ _ rfl (fun id => rfl), ?_, ?_⟩
  · intro id hm
    show (sadd areaId st.area_requests).contains id = true
    rw [contains_sadd_iff]
    exact Or.inr hm
  · intro id
    by_cases hid : areaId = id
    · subst hid
      refine ⟨?_, ?_, ?_⟩
      · show rCnt [Event.fetchArea areaId albumId] areaId ≤ 1
        rw [rCnt_fetchArea_self]
      · intro hpre
        rw [hpre] at h
        cases h
      · intro _
        show (sadd areaId st.area_requests).contains areaId = true
        rw [contains_sadd_iff]
        exact Or.inl rfl
    · refine ⟨?_, ?_, ?_⟩
      · show rCnt [Event.fetchArea areaId albumId] id ≤ 1
        rw [rCnt_fetchArea_ne _ hid]
        omega
      · intro _
        show rCnt [Event.fetchArea areaId albumId] id = 0
        exact rCnt_fetchArea_ne _ hid
      · intro hge
        have hge' : 1 ≤ rCnt [Event.fetchArea areaId albumId] id := hge
        rw [rCnt_fetchArea_ne _ hid] at hge'
        omega

theorem process_area_field_ReqOK (albumId k : String) (v : Option String)
    (acc : PluginState × List Event × List (String × String)) :
    ∃ δ, (process_area_field albumId k v acc).2.1 = acc.2.1 ++ δ
      ∧ ReqOK acc.1 (process_area_field albumId k v acc).1 δ := by
  unfold process_area_field
  cases v with
  | none => exact ⟨[], (List.append_nil _).symm, ReqOK_nil _⟩
  | some aid =>
    dsimp only
    split
    · exact ⟨[], (List.append_nil _).symm, ReqOK_nil _⟩
    · split
      · exact ⟨[], (List.append_nil _).symm, ReqOK_nil _⟩
      · rename_i hc
        exact ⟨(get_area_info acc.1 aid albumId).2, rfl,
          get_area_info_ReqOK acc.1 aid albumId (by simpa using hc)⟩

theorem artist_body_ReqOK (st : PluginState) (doc : ArtistDoc) (artist albumId : String) :
    ReqOK st (artist_body st doc artist albumId).1 (artist_body st doc artist albumId).2 := by
  unfold artist_body
  dsimp only
  obtain ⟨d1, e1, c1⟩ := process_area_field_ReqOK albumId "area" doc.area (st, [], _)
  obtain ⟨d2, e2, c2⟩ := process_area_field_ReqOK albumId "begin-area" doc.begin_area _
  obtain ⟨d3, e3, c3⟩ := process_area_field_ReqOK albumId "end-area" doc.end_area _
  rw [e3, e2, e1]
  simp only [List.nil_append]
  exact ReqOK_post (ReqOK_comp (ReqOK_comp c1 c2) c3) (ReqOK_silent_state _ _ rfl rfl)

theorem artist_handler_ReqOK (cfg : Config) (st : PluginState) (err : Bool)
    (doc : ArtistDoc) (artist albumId : String) :
    ReqOK st (artist_handler cfg st err doc artist albumId).1
      (artist_handler cfg st err doc artist albumId).2 := by
  unfold artist_handler
  dsimp only
  cases err with
  | true =>
    simp only [if_true]
    exact ReqOK_comp (ReqOK_nil st) (album_remove_request_ReqOK cfg st albumId)
  | false =>
    simp only [Bool.false_eq_true, if_false, reduceIte]
    exact ReqOK_comp (artist_body_ReqOK st doc artist albumId)
      (album_remove_request_ReqOK cfg _ albumId)

theorem add_country_ReqOK (st : PluginState) (p : ParsedArea) :
    ReqOK st (add_country st p) [] := by
  unfold add_country
  split
  · exact ReqOK_nil st
  · exact ReqOK_grow _ _ p.pid rfl rfl

theorem parse_area_relation_ReqOK (st : PluginState) (area_id albumId an aty att : String)
    (rel : RelDoc) :
    ReqOK st (parse_area_relation st area_id rel albumId an aty att).1
      (parse_area_relation st area_id rel albumId an aty att).2 := by
  rcases hta : rel.type_id with _ | tid
  · unfold parse_area_relation
    rw [hta]
    exact ReqOK_nil st
  · rcases har : rel.area with _ | adoc
    · unfold parse_area_relation
      rw [hta, har]
      exact ReqOK_nil st
    · unfold parse_area_relation
      rw [hta, har]
      dsimp only
      split
      · exact ReqOK_nil st
      · split
        · exact ReqOK_nil st
        · split
          · -- backward branch
            split
            · refine ReqOK_pre ?_ (add_country_ReqOK _ _)
              split
              · exact ReqOK_nil st
              · exact ReqOK_grow _ _ area_id rfl rfl
            · split
              · rename_i hguard
                refine ReqOK_pre ?_ (get_area_info_ReqOK _ _ albumId hguard.2)
                split
                · exact ReqOK_nil st
                · exact ReqOK_grow _ _ area_id rfl rfl
              · show ReqOK st _ []
                split
                · exact ReqOK_nil st
                · exact ReqOK_grow _ _ area_id rfl rfl
          · split
            · exact add_country_ReqOK st _
            · exact ReqOK_grow _ _ (parse_area adoc).pid rfl rfl

theorem rel_loop_ReqOK (albumId area_id an aty att : String) :
    ∀ (rels : List RelDoc) (st : PluginState),
      ReqOK st (rel_loop albumId area_id an aty att rels st).1
        (rel_loop albumId area_id an aty att rels st).2 := by
  intro rels
  induction rels with
  | nil => intro st; exact ReqOK_nil st
  | cons rel rest ih =>
    intro st
    show ReqOK st (rel_loop albumId area_id an aty att rest
        (parse_area_relation st area_id rel albumId an aty att).1).1 _
    exact ReqOK_comp (parse_area_relation_ReqOK st area_id albumId an aty att rel) (ih _)

theorem remove_album_area_request_requests (st : PluginState) (albumId areaId : String) :
    (remove_album_area_request st albumId areaId).artist_requests = st.artist_requests
    ∧ (remove_album_area_request st albumId areaId).area_requests = st.area_requests := by
  unfold remove_album_area_request
  split <;> exact ⟨rfl, rfl⟩

theorem area_handler_ReqOK (cfg : Config) (st : PluginState) (err : Bool)
    (doc : AreaDocTop) (area albumId : String) :
    ReqOK st (area_handler cfg st err doc area albumId).1
      (area_handler cfg st err doc area albumId).2 := by
  unfold area_handler
  dsimp only
  refine ReqOK_comp ?_ (ReqOK_pre (ReqOK_silent_state _ _
    (remove_album_area_request_requests _ albumId area).1
    (remove_album_area_request_requests _ albumId area).2)
    (album_remove_request_ReqOK cfg _ albumId))
  cases err with
  | true =>
    simp only [if_true]
    exact ReqOK_nil st
  | false =>
    simp only [Bool.false_eq_true, if_false, reduceIte]
    split
    · split
      · exact ReqOK_silent_state _ _ rfl rfl
      · exact ReqOK_nil st
    · refine ReqOK_pre ?_ (rel_loop_ReqOK albumId _ _ _ _ _ _)
      split
      · exact ReqOK_silent_state _ _ rfl rfl
      · exact ReqOK_nil st

theorem remove_album_ReqOK (st : PluginState) (a : String) :
    ReqOK st (remove_album st a) [] :=
  ReqOK_silent_state _ _ rfl rfl

theorem runStep_ReqOK (cfg : Config) (w : World) (step : Step) :
    ∃ δ, (runStep cfg w step).log = w.log ++ δ
      ∧ ReqOK w.st (runStep cfg w step).st δ := by
  cases step with
  | processAlbum a artists =>
    exact ⟨(make_album_vars cfg w.st a artists).2, rfl, make_album_vars_ReqOK cfg w.st a artists⟩
  | processTrack a artists =>
    exact ⟨(artist_processing cfg w.st artists a).2, rfl, artist_processing_ReqOK cfg w.st artists a⟩
  | artistDone artist a err doc =>
    simp only [runStep]
    split
    · refine ⟨Event.artistCompleted artist a :: (artist_handler cfg w.st err doc artist a).2,
        rfl, ?_⟩
      have h := ReqOK_comp (ReqOK_marker w.st artist a)
        (artist_handler_ReqOK cfg w.st err doc artist a)
      simpa using h
    · exact ⟨[], (List.append_nil _).symm, ReqOK_nil _⟩
  | areaDone area a err doc =>
    simp only [runStep]
    split
    · refine ⟨Event.areaCompleted area a :: (area_handler cfg w.st err doc area a).2, rfl, ?_⟩
      have h := ReqOK_comp (ReqOK_marker_area w.st area a)
        (area_handler_ReqOK cfg w.st err doc area a)
      simpa using h
    · exact ⟨[], (List.append_nil _).symm, ReqOK_nil _⟩
  | removeAlbum a =>
    exact ⟨[], (List.append_nil _).symm, remove_album_ReqOK w.st a⟩

theorem ReqInv_step (cfg : Config) (w : World) (step : Step) (h : ReqInv w) :
    ReqInv (runStep cfg w step) := by
  obtain ⟨δ, hlog, ⟨am, ac⟩, ⟨rm, rc⟩⟩ := runStep_ReqOK cfg w step
  obtain ⟨h1, h2, h3, h4⟩ := h
  refine ⟨?_, ?_, ?_, ?_⟩ <;> intro id
  · rw [hlog, aCnt_append, ac id]
    constructor
    · intro hpost
      by_cases hpre : w.st.artist_requests.contains id = true
      · rw [if_neg (by rw [hpre]; rintro ⟨-, hx⟩; cases hx)]
        rw [(h1 id).1 hpre]
      · have hpre' : w.st.artist_requests.contains id = false := by simpa using hpre
        rw [if_pos ⟨hpost, hpre'⟩]
        have hne : ¬(aCnt w.log id = 1) := fun hx => hpre ((h1 id).2 hx)
        have := h2 id
        omega
    · intro hsum
      by_cases hpost : (runStep cfg w step).st.artist_requests.contains id = true
      · exact hpost
      · have hpost' : (runStep cfg w step).st.artist_requests.contains id = false := by
          simpa using hpost
        rw [if_neg (by rw [hpost']; rintro ⟨hx, -⟩; cases hx)] at hsum
        have := (h1 id).2 (by omega)
        exact am id this
  · rw [hlog, aCnt_append, ac id]
    split
    · rename_i hcond
      have hpre : w.st.artist_requests.contains id = false := hcond.2
      have hne : ¬(aCnt w.log id = 1) := fun hx => by
        rw [(h1 id).2 hx] at hpre
        cases hpre
      have := h2 id
      omega
    · have := h2 id
      omega
  · rw [hlog, rCnt_append]
    by_cases hpre : w.st.area_requests.contains id = true
    · rw [(rc id).2.1 hpre]
      have := h3 id
      omega
    · rw [h4 id (by simpa using hpre)]
      have := (rc id).1
      omega
  · intro hpost
    rw [hlog, rCnt_append]
    have hpre : w.st.area_requests.contains id = false := by
      by_cases hx : w.st.area_requests.contains id = true
      · rw [rm id hx] at hpost
        cases hpost
      · simpa using hx
    rw [h4 id hpre]
    have hδ : rCnt δ id = 0 := by
      rcases Nat.eq_zero_or_pos (rCnt δ id) with hz | hp
      · exact hz
      · rw [(rc id).2.2 (by omega)] at hpost
        cases hpost
    rw [hδ]

theorem ReqInv_init : ReqInv worldInit := by
  refine ⟨fun id => ?_, fun id => ?_, fun id => ?_, fun id _ => ?_⟩ <;>
    simp [worldInit, initState, aCnt, rCnt, List.contains]

theorem ReqInv_trace (cfg : Config) :
    ∀ (steps : List Step) (w : World), ReqInv w → ReqInv (runTrace cfg w steps) := by
  intro steps
  induction steps with
  | nil => intro w h; exact h
  | cons s rest ih =>
    intro w h
    exact ih (runStep cfg w s) (ReqInv_step cfg w s h)

theorem artist_processing_covers (cfg : Config) (st : PluginState) (artists : List String)
    (albumId id : String) (h : id ∈ artists) :
    (artist_processing cfg st artists albumId).1.artist_requests.contains id = true := by
  unfold artist_processing
  dsimp only
  rw [(save_requests cfg _ albumId).1, (add_target_requests _ albumId artists []).1]
  exact artist_processing_loop_covers albumId artists st id h

theorem make_album_vars_covers (cfg : Config) (st : PluginState) (albumId : String)
    (artists : List String) (id : String) (h : id ∈ artists) :
    (make_album_vars cfg st albumId artists).1.artist_requests.contains id = true := by
  unfold make_album_vars make_empty_target
  repeat' (first | split | dsimp only)
  all_goals exact artist_processing_covers cfg _ artists albumId id h

theorem runTrace_mono (cfg : Config) :
    ∀ (steps : List Step) (w : World) (id : String),
      w.st.artist_requests.contains id = true →
      (runTrace cfg w steps).st.artist_requests.contains id = true := by
  intro steps
  induction steps with
  | nil => intro w id h; exact h
  | cons s rest ih =>
    intro w id h
    refine ih (runStep cfg w s) id ?_
    obtain ⟨δ, -, hok⟩ := runStep_ReqOK cfg w s
    exact hok.1.1 id h

theorem referenced_covers (cfg : Config) :
    ∀ (steps : List Step) (w : World) (id : String), id ∈ referencedArtists steps →
      (runTrace cfg w steps).st.artist_requests.contains id = true := by
  intro steps
  induction steps with
  | nil => intro w id h; cases h
  | cons s rest ih =>
    intro w id hid
    cases s with
    | processAlbum a artists =>
      have hsplit : referencedArtists (Step.processAlbum a artists :: rest)
          = artists ++ referencedArtists rest := rfl
      rw [hsplit] at hid
      rcases List.mem_append.1 hid with hL | hR
      · exact runTrace_mono cfg rest _ id (make_album_vars_covers cfg w.st a artists id hL)
      · exact ih _ id hR
    | processTrack a artists =>
      have hsplit : referencedArtists (Step.processTrack a artists :: rest)
          = artists ++ referencedArtists rest := rfl
      rw [hsplit] at hid
      rcases List.mem_append.1 hid with hL | hR
      · exact runTrace_mono cfg rest _ id (artist_processing_covers cfg w.st artists a id hL)
      · exact ih _ id hR
    | artistDone artist a err doc =>
      exact ih _ id (by exact hid)
    | areaDone area a err doc =>
      exact ih _ id (by exact hid)
    | removeAlbum a =>
      exact ih _ id (by exact hid)

/-- C1 amended: in any session, at most one fetch is ever issued per
artist identifier and per area identifier, and every artist identifier
referenced by an album or track processing step receives exactly one
fetch.  (An area identifier may be referenced yet receive no fetch when
relation parsing already recorded it in the pending-request set; see the
counterexample, which is why the exactly-once half is restricted to
artists.) -/
theorem c1_amended (cfg : Config) (steps : List Step) :
    (∀ id, aCnt (runTrace cfg worldInit steps).log id ≤ 1
      ∧ rCnt (runTrace cfg worldInit steps).log id ≤ 1)
    ∧ (∀ id, id ∈ referencedArtists steps →
        aCnt (runTrace cfg worldInit steps).log id = 1) := by
  have hinv := ReqInv_trace cfg steps worldInit ReqInv_init
  refine ⟨fun id => ⟨hinv.2.1 id, hinv.2.2.1 id⟩, fun id hid => ?_⟩
  exact (hinv.1 id).1 (referenced_covers cfg steps worldInit id hid)

/-- C1 witness: in a one-step session referencing artist wa, exactly one
fetch for wa is issued. -/
theorem c1_amended_witness :
    aCnt (runTrace cfg0 worldInit [Step.processAlbum "w1" ["wa"]]).log "wa" = 1 :=
  (c1_amended cfg0 [Step.processAlbum "w1" ["wa"]]).2 "wa" (by decide)

/-! C2: balance-checker machinery. -/

theorem balAfter_nil (m : List (String × Int)) : balAfter m [] = m := rfl

theorem balAfter_append (m : List (String × Int)) (xs ys : List Event) :
    balAfter m (xs ++ ys) = balAfter (balAfter m xs) ys := by
  unfold balAfter
  rw [List.foldl_append]

theorem chkFrom_append (m : List (String × Int)) (xs ys : List Event) :
    chkFrom m (xs ++ ys) = (chkFrom m xs && chkFrom (balAfter m xs) ys) := by
  induction xs generalizing m with
  | nil => simp [chkFrom, balAfter_nil]
  | cons e rest ih =>
    show (evOK m e && chkFrom (balStep m e) (rest ++ ys)) = _
    rw [ih (balStep m e)]
    show _ = ((evOK m e && chkFrom (balStep m e) rest) && chkFrom (balAfter (balStep m e) rest) ys)
    rw [Bool.and_assoc]

theorem balAfter_int (a : String) :
    ∀ (L : List Event) (m : List (String × Int)),
      dlookupInt (balAfter m L) a = dlookupInt m a + (issCnt L a : Int) - compCnt L a := by
  intro L
  induction L with
  | nil => intro m; simp [balAfter_nil, issCnt, compCnt]
  | cons e rest ih =>
    intro m
    show dlookupInt (balAfter (balStep m e) rest) a = _
    rw [ih (balStep m e)]
    have hiss : issCnt (e :: rest) a = issCnt [e] a + issCnt rest a := by
      have h := issCnt_append [e] rest a
      simpa using h
    have hcomp : compCnt (e :: rest) a = compCnt [e] a + compCnt rest a := by
      have h := compCnt_append [e] rest a
      simpa using h
    rw [hiss, hcomp]
    cases e with
    | fetchArtist i b =>
      by_cases hb : b = a
      · subst hb
        have h1 : dlookupInt (balStep m (Event.fetchArtist i b)) b = dlookupInt m b + 1 := by
          show dlookupInt (dinsert b (dlookupInt m b + 1) m) b = _
          unfold dlookupInt
          rw [dlookup_dinsert_self]
          rfl
        have h2 : issCnt [Event.fetchArtist i b] b = 1 := by simp [issCnt]
        have h3 : compCnt [Event.fetchArtist i b] b = 0 := by simp [compCnt]
        rw [h1, h2, h3]
        push_cast
        omega
      · have h1 : dlookupInt (balStep m (Event.fetchArtist i b)) a = dlookupInt m a := by
          show dlookupInt (dinsert b (dlookupInt m b + 1) m) a = _
          unfold dlookupInt
          rw [dlookup_dinsert_ne _ _ hb]
        have h2 : issCnt [Event.fetchArtist i b] a = 0 := by simp [issCnt, hb]
        have h3 : compCnt [Event.fetchArtist i b] a = 0 := by simp [compCnt]
        rw [h1, h2, h3]
        push_cast
        omega
    | fetchArea i b =>
      by_cases hb : b = a
      · subst hb
        have h1 : dlookupInt (balStep m (Event.fetchArea i b)) b = dlookupInt m b + 1 := by
          show dlookupInt (dinsert b (dlookupInt m b + 1) m) b = _
          unfold dlookupInt
          rw [dlookup_dinsert_self]
          rfl
        have h2 : issCnt [Event.fetchArea i b] b = 1 := by simp [issCnt]
        have h3 : compCnt [Event.fetchArea i b] b = 0 := by simp [compCnt]
        rw [h1, h2, h3]
        push_cast
        omega
      · have h1 : dlookupInt (balStep m (Event.fetchArea i b)) a = dlookupInt m a := by
          show dlookupInt (dinsert b (dlookupInt m b + 1) m) a = _
          unfold dlookupInt
          rw [dlookup_dinsert_ne _ _ hb]
        have h2 : issCnt [Event.fetchArea i b] a = 0 := by simp [issCnt, hb]
        have h3 : compCnt [Event.fetchArea i b] a = 0 := by simp [compCnt]
        rw [h1, h2, h3]
        push_cast
        omega
    | artistCompleted i b =>
      by_cases hb : b = a
      · subst hb
        have h1 : dlookupInt (balStep m (Event.artistCompleted i b)) b = dlookupInt m b - 1 := by
          show dlookupInt (dinsert b (dlookupInt m b - 1) m) b = _
          unfold dlookupInt
          rw [dlookup_dinsert_self]
          rfl
        have h2 : issCnt [Event.artistCompleted i b] b = 0 := by simp [issCnt]
        have h3 : compCnt [Event.artistCompleted i b] b = 1 := by simp [compCnt]
        rw [h1, h2, h3]
        push_cast
        omega
      · have h1 : dlookupInt (balStep m (Event.artistCompleted i b)) a = dlookupInt m a := by
          show dlookupInt (dinsert b (dlookupInt m b - 1) m) a = _
          unfold dlookupInt
          rw [dlookup_dinsert_ne _ _ hb]
        have h2 : issCnt [Event.artistCompleted i b] a = 0 := by simp [issCnt]
        have h3 : compCnt [Event.artistCompleted i b] a = 0 := by simp [compCnt, hb]
        rw [h1, h2, h3]
        push_cast
        omega
    | areaCompleted i b =>
      by_cases hb : b = a
      · subst hb
        have h1 : dlookupInt (balStep m (Event.areaCompleted i b)) b = dlookupInt m b - 1 := by
          show dlookupInt (dinsert b (dlookupInt m b - 1) m) b = _
          unfold dlookupInt
          rw [dlookup_dinsert_self]
          rfl
        have h2 : issCnt [Event.areaCompleted i b] b = 0 := by simp [issCnt]
        have h3 : compCnt [Event.areaCompleted i b] b = 1 := by simp [compCnt]
        rw [h1, h2, h3]
        push_cast
        omega
      · have h1 : dlookupInt (balStep m (Event.areaCompleted i b)) a = dlookupInt m a := by
          show dlookupInt (dinsert b (dlookupInt m b - 1) m) a = _
          unfold dlookupInt
          rw [dlookup_dinsert_ne _ _ hb]
        have h2 : issCnt [Event.areaCompleted i b] a = 0 := by simp [issCnt]
        have h3 : compCnt [Event.areaCompleted i b] a = 0 := by simp [compCnt, hb]
        rw [h1, h2, h3]
        push_cast
        omega
    | writeBackRun b =>
      have h2 : issCnt [Event.writeBackRun b] a = 0 := by simp [issCnt]
      have h3 : compCnt [Event.writeBackRun b] a = 0 := by simp [compCnt]
      rw [show balStep m (Event.writeBackRun b) = m from rfl, h2, h3]
      push_cast
      omega
    | finalize b =>
      have h2 : issCnt [Event.finalize b] a = 0 := by simp [issCnt]
      have h3 : compCnt [Event.finalize b] a = 0 := by simp [compCnt]
      rw [show balStep m (Event.finalize b) = m from rfl, h2, h3]
      push_cast
      omega




/-! ### Lemmas toward the amended C2: the balance contracts. -/

theorem newArtistPends_append (e1 e2 : List Event) :
    newArtistPends (e1 ++ e2) = newArtistPends e1 ++ newArtistPends e2 := by
  simp [newArtistPends]

theorem newAreaPends_append (e1 e2 : List Event) :
    newAreaPends (e1 ++ e2) = newAreaPends e1 ++ newAreaPends e2 := by
  simp [newAreaPends]

theorem counter_busy_false_iff (st : PluginState) (a : String) :
    counter_busy st a = false ↔ dlookupInt st.album_processing_count a = 0 := by
  unfold counter_busy dlookupInt
  cases h : dlookup st.album_processing_count a with
  | none => simp
  | some c => simp

theorem dlookupInt_dinsert_self (a : String) (v : Int) (m : List (String × Int)) :
    dlookupInt (dinsert a v m) a = v := by
  unfold dlookupInt
  rw [dlookup_dinsert_self]
  rfl

theorem dlookupInt_dinsert_ne {a b : String} (v : Int) (m : List (String × Int)) (h : a ≠ b) :
    dlookupInt (dinsert a v m) b = dlookupInt m b := by
  unfold dlookupInt
  rw [dlookup_dinsert_ne _ _ h]

theorem CountPresMono_of_eq {s t : PluginState}
    (h : t.album_processing_count = s.album_processing_count) : CountPresMono s t := by
  intro a ha
  rw [h]
  exact ha

theorem CountPresMono_comp {s1 s2 s3 : PluginState}
    (h1 : CountPresMono s1 s2) (h2 : CountPresMono s2 s3) : CountPresMono s1 s3 :=
  fun a ha => h2 a (h1 a ha)

theorem CountPresMono_dinsert {s t : PluginState} (k : String) (v : Int)
    (h : t.album_processing_count = dinsert k v s.album_processing_count) :
    CountPresMono s t := by
  intro a ha
  rw [h]
  by_cases hk : k = a
  · subst hk
    rw [dlookup_dinsert_self]
    rfl
  · rw [dlookup_dinsert_ne _ _ hk]
    exact ha

theorem PendCovP_nil (s : PluginState) : PendCovP s [] := by
  intro p hp
  simp [newArtistPends, newAreaPends] at hp

theorem PendCovP_comp {s2 s3 : PluginState} {e1 e2 : List Event}
    (h1 : PendCovP s2 e1) (h2 : PendCovP s3 e2) (hm : CountPresMono s2 s3) :
    PendCovP s3 (e1 ++ e2) := by
  intro p hp
  rw [newArtistPends_append, newAreaPends_append] at hp
  simp only [List.mem_append] at hp
  rcases hp with (h | h) | (h | h)
  · exact hm p.2 (h1 p (by simp only [List.mem_append]; exact Or.inl h))
  · exact h2 p (by simp only [List.mem_append]; exact Or.inl h)
  · exact hm p.2 (h1 p (by simp only [List.mem_append]; exact Or.inr h))
  · exact h2 p (by simp only [List.mem_append]; exact Or.inr h)

theorem CtrC_of_silent {s t : PluginState}
    (hc : t.album_processing_count = s.album_processing_count) : CtrC s t [] := by
  refine ⟨?_, CountPresMono_of_eq hc, PendCovP_nil _⟩
  intro d m hm
  refine ⟨rfl, ?_⟩
  intro a
  rw [balAfter_nil, hc]
  exact hm a

theorem CtrC_comp {s1 s2 s3 : PluginState} {e1 e2 : List Event}
    (h1 : CtrC s1 s2 e1) (h2 : CtrC s2 s3 e2) : CtrC s1 s3 (e1 ++ e2) := by
  obtain ⟨hb1, hm1, hp1⟩ := h1
  obtain ⟨hb2, hm2, hp2⟩ := h2
  refine ⟨?_, CountPresMono_comp hm1 hm2, PendCovP_comp hp1 hp2 hm2⟩
  intro d m hag
  obtain ⟨hc1, ha1⟩ := hb1 d m hag
  obtain ⟨hc2, ha2⟩ := hb2 d (balAfter m e1) ha1
  refine ⟨?_, ?_⟩
  · rw [chkFrom_append, hc1, hc2]
    rfl
  · rw [balAfter_append]
    exact ha2

theorem CtrC_to_CtrC0 {s t : PluginState} {ev : List Event} (h : CtrC s t ev) :
    CtrC0 s t ev :=
  ⟨fun m hm => h.1 dZero m hm, h.2.1, h.2.2⟩

theorem CtrC0_comp_left {s1 s2 s3 : PluginState} {e1 e2 : List Event}
    (h1 : CtrC s1 s2 e1) (h2 : CtrC0 s2 s3 e2) : CtrC0 s1 s3 (e1 ++ e2) := by
  obtain ⟨hb1, hm1, hp1⟩ := h1
  obtain ⟨hb2, hm2, hp2⟩ := h2
  refine ⟨?_, CountPresMono_comp hm1 hm2, PendCovP_comp hp1 hp2 hm2⟩
  intro m hag
  obtain ⟨hc1, ha1⟩ := hb1 dZero m hag
  obtain ⟨hc2, ha2⟩ := hb2 (balAfter m e1) ha1
  refine ⟨?_, ?_⟩
  · rw [chkFrom_append, hc1, hc2]
    rfl
  · rw [balAfter_append]
    exact ha2

theorem CtrC0_comp {s1 s2 s3 : PluginState} {e1 e2 : List Event}
    (h1 : CtrC0 s1 s2 e1) (h2 : CtrC0 s2 s3 e2) : CtrC0 s1 s3 (e1 ++ e2) := by
  obtain ⟨hb1, hm1, hp1⟩ := h1
  obtain ⟨hb2, hm2, hp2⟩ := h2
  refine ⟨?_, CountPresMono_comp hm1 hm2, PendCovP_comp hp1 hp2 hm2⟩
  intro m hag
  obtain ⟨hc1, ha1⟩ := hb1 m hag
  obtain ⟨hc2, ha2⟩ := hb2 (balAfter m e1) ha1
  refine ⟨?_, ?_⟩
  · rw [chkFrom_append, hc1, hc2]
    rfl
  · rw [balAfter_append]
    exact ha2

theorem CtrC1_comp_left {al : String} {s1 s2 s3 : PluginState} {e1 e2 : List Event}
    (h1 : CtrC s1 s2 e1) (h2 : CtrC1 al s2 s3 e2) : CtrC1 al s1 s3 (e1 ++ e2) := by
  obtain ⟨hb1, hm1, hp1⟩ := h1
  obtain ⟨hb2, hm2, hp2⟩ := h2
  refine ⟨?_, CountPresMono_comp hm1 hm2, PendCovP_comp hp1 hp2 hm2⟩
  intro m hag
  obtain ⟨hc1, ha1⟩ := hb1 (dOne al) m hag
  obtain ⟨hc2, ha2⟩ := hb2 (balAfter m e1) ha1
  refine ⟨?_, ?_⟩
  · rw [chkFrom_append, hc1, hc2]
    rfl
  · rw [balAfter_append]
    exact ha2

theorem CtrC0_pre {s0 s1 s2 : PluginState} {ev : List Event}
    (hc : s1.album_processing_count = s0.album_processing_count)
    (h : CtrC0 s1 s2 ev) : CtrC0 s0 s2 ev := by
  obtain ⟨hb, hm, hp⟩ := h
  refine ⟨?_, ?_, hp⟩
  · intro m hag
    refine hb m ?_
    intro a
    rw [hc]
    exact hag a
  · intro a ha
    refine hm a ?_
    rw [hc]
    exact ha

theorem CtrC1_pre {al : String} {s0 s1 s2 : PluginState} {ev : List Event}
    (hc : s1.album_processing_count = s0.album_processing_count)
    (h : CtrC1 al s1 s2 ev) : CtrC1 al s0 s2 ev := by
  obtain ⟨hb, hm, hp⟩ := h
  refine ⟨?_, ?_, hp⟩
  · intro m hag
    refine hb m ?_
    intro a
    rw [hc]
    exact hag a
  · intro a ha
    refine hm a ?_
    rw [hc]
    exact ha



theorem album_add_request_count_eq (st : PluginState) (al : String) :
    (album_add_request st al).album_processing_count
      = dinsert al (dlookupInt st.album_processing_count al + 1) st.album_processing_count := by
  unfold album_add_request dlookupInt
  cases dlookup st.album_processing_count al <;> rfl

theorem get_artist_info_CtrC (st : PluginState) (i al : String) :
    CtrC st (get_artist_info st i al).1 (get_artist_info st i al).2 := by
  have hcount : (get_artist_info st i al).1.album_processing_count
      = dinsert al (dlookupInt st.album_processing_count al + 1) st.album_processing_count :=
    album_add_request_count_eq st al
  refine ⟨?_, CountPresMono_dinsert al _ hcount, ?_⟩
  · intro d m hag
    refine ⟨rfl, ?_⟩
    intro a
    have hbal : balAfter m (get_artist_info st i al).2
        = dinsert al (dlookupInt m al + 1) m := rfl
    rw [hbal, hcount]
    by_cases hx : al = a
    · subst hx
      rw [dlookupInt_dinsert_self, dlookupInt_dinsert_self]
      have h1 := hag al
      omega
    · rw [dlookupInt_dinsert_ne _ _ hx, dlookupInt_dinsert_ne _ _ hx]
      exact hag a
  · intro p hp
    have hp2 : p = (i, al) := by
      simpa [newArtistPends, newAreaPends, get_artist_info] using hp
    subst hp2
    rw [hcount, dlookup_dinsert_self]
    rfl

theorem get_area_info_CtrC (st : PluginState) (i al : String) :
    CtrC st (get_area_info st i al).1 (get_area_info st i al).2 := by
  have hcount : (get_area_info st i al).1.album_processing_count
      = dinsert al (dlookupInt st.album_processing_count al + 1) st.album_processing_count :=
    album_add_request_count_eq { st with area_requests := sadd i st.area_requests } al
  refine ⟨?_, CountPresMono_dinsert al _ hcount, ?_⟩
  · intro d m hag
    refine ⟨rfl, ?_⟩
    intro a
    have hbal : balAfter m (get_area_info st i al).2
        = dinsert al (dlookupInt m al + 1) m := rfl
    rw [hbal, hcount]
    by_cases hx : al = a
    · subst hx
      rw [dlookupInt_dinsert_self, dlookupInt_dinsert_self]
      have h1 := hag al
      omega
    · rw [dlookupInt_dinsert_ne _ _ hx, dlookupInt_dinsert_ne _ _ hx]
      exact hag a
  · intro p hp
    have hp2 : p = (i, al) := by
      simpa [newArtistPends, newAreaPends, get_area_info] using hp
    subst hp2
    rw [hcount, dlookup_dinsert_self]
    rfl

theorem save_CtrC0 (cfg : Config) (st : PluginState) (al : String) :
    CtrC0 st (save_artist_metadata cfg st al).1 (save_artist_metadata cfg st al).2 := by
  refine ⟨?_, CountPresMono_of_eq (save_artist_metadata_count cfg st al), ?_⟩
  · intro m hag
    rcases save_snd_nil_or cfg st al with h | h
    · rw [h]
      refine ⟨rfl, ?_⟩
      intro a
      rw [balAfter_nil, save_artist_metadata_count]
      exact hag a
    · have hguards := (save_emits_iff cfg st al).mp h
      have hzero : dlookupInt st.album_processing_count al = 0 :=
        (counter_busy_false_iff st al).mp hguards.1
      rw [h]
      constructor
      · have hm0 : dlookupInt m al = 0 := by
          have h1 := hag al
          simp only [dZero] at h1
          omega
        show ((dlookupInt m al == 0) && true) = true
        rw [hm0]
        rfl
      · intro a
        have hb : balAfter m [Event.writeBackRun al] = m := rfl
        rw [hb, save_artist_metadata_count]
        exact hag a
  · intro p hp
    rcases save_snd_nil_or cfg st al with h | h <;> rw [h] at hp <;>
      simp [newArtistPends, newAreaPends] at hp

theorem album_remove_request_CtrC1 (cfg : Config) (st : PluginState) (al : String)
    (hsome : (dlookup st.album_processing_count al).isSome = true) :
    CtrC1 al st (album_remove_request cfg st al).1 (album_remove_request cfg st al).2 := by
  have hcount := album_remove_request_count cfg st al
  have hctr : ctr_pre st al = dlookupInt st.album_processing_count al := by
    unfold ctr_pre dlookupInt
    cases h : dlookup st.album_processing_count al with
    | none =>
      rw [h] at hsome
      simp at hsome
    | some c => rfl
  have hev : (album_remove_request cfg st al).2 = []
      ∨ (album_remove_request cfg st al).2 = [Event.finalize al]
      ∨ ((album_remove_request cfg st al).2 = [Event.writeBackRun al, Event.finalize al]
          ∧ dlookupInt (decr_count st al).album_processing_count al = 0) := by
    unfold album_remove_request
    dsimp only
    split
    · rcases save_snd_nil_or cfg (decr_count st al) al with h | h
      · right
        left
        rw [h]
        rfl
      · right
        right
        constructor
        · rw [h]
          rfl
        · have hguards := (save_emits_iff cfg (decr_count st al) al).mp h
          exact (counter_busy_false_iff (decr_count st al) al).mp hguards.1
    · left
      rfl
  refine ⟨?_, CountPresMono_dinsert al _ hcount, ?_⟩
  · intro m hag
    have hagpost : CAgreeD dZero m (album_remove_request cfg st al).1.album_processing_count := by
      intro a
      rw [hcount]
      by_cases hx : al = a
      · subst hx
        rw [dlookupInt_dinsert_self, hctr]
        have h1 := hag al
        have h2 : dOne al al = 1 := by simp [dOne]
        have h3 : dZero al = (0 : Int) := rfl
        rw [h2] at h1
        rw [h3]
        omega
      · rw [dlookupInt_dinsert_ne _ _ hx]
        have h1 := hag a
        have h2 : dOne al a = 0 := by
          unfold dOne
          rw [if_neg (fun hh => hx (Eq.symm hh))]
        have h3 : dZero a = (0 : Int) := rfl
        rw [h2] at h1
        rw [h3]
        omega
    rcases hev with h | h | ⟨h, hz⟩
    · rw [h]
      refine ⟨rfl, ?_⟩
      rw [balAfter_nil]
      exact hagpost
    · rw [h]
      refine ⟨rfl, ?_⟩
      have hb : balAfter m [Event.finalize al] = m := rfl
      rw [hb]
      exact hagpost
    · rw [h]
      constructor
      · have hdz : dlookupInt (decr_count st al).album_processing_count al
            = ctr_pre st al - 1 := by
          show dlookupInt (dinsert al (ctr_pre st al - 1) st.album_processing_count) al = _
          rw [dlookupInt_dinsert_self]
        have h1 := hag al
        have h2 : dOne al al = 1 := by simp [dOne]
        rw [h2] at h1
        rw [hdz, hctr] at hz
        have hm0 : dlookupInt m al = 0 := by omega
        show ((dlookupInt m al == 0) && ((true : Bool) && true)) = true
        rw [hm0]
        rfl
      · have hb : balAfter m [Event.writeBackRun al, Event.finalize al] = m := rfl
        rw [hb]
        exact hagpost
  · intro p hp
    rcases hev with h | h | ⟨h, -⟩ <;> rw [h] at hp <;>
      simp [newArtistPends, newAreaPends] at hp



theorem CtrC_pre {s0 s1 s2 : PluginState} {ev : List Event}
    (hc : s1.album_processing_count = s0.album_processing_count)
    (h : CtrC s1 s2 ev) : CtrC s0 s2 ev := by
  obtain ⟨hb, hm, hp⟩ := h
  refine ⟨?_, ?_, hp⟩
  · intro d m hag
    refine hb d m ?_
    intro a
    rw [hc]
    exact hag a
  · intro a ha
    refine hm a ?_
    rw [hc]
    exact ha

theorem CtrC_post {s0 s1 s2 : PluginState} {ev : List Event}
    (h : CtrC s0 s1 ev)
    (hc : s2.album_processing_count = s1.album_processing_count) : CtrC s0 s2 ev := by
  obtain ⟨hb, hm, hp⟩ := h
  refine ⟨?_, ?_, ?_⟩
  · intro d m hag
    obtain ⟨h1, h2⟩ := hb d m hag
    refine ⟨h1, ?_⟩
    intro a
    rw [hc]
    exact h2 a
  · intro a ha
    rw [hc]
    exact hm a ha
  · intro p hp2
    rw [hc]
    exact hp p hp2

theorem add_country_CtrC (st : PluginState) (p : ParsedArea) :
    CtrC st (add_country st p) [] := by
  unfold add_country
  split
  · exact CtrC_of_silent rfl
  · exact CtrC_of_silent rfl

theorem parse_area_relation_CtrC (st : PluginState) (area_id albumId an aty att : String)
    (rel : RelDoc) :
    CtrC st (parse_area_relation st area_id rel albumId an aty att).1
      (parse_area_relation st area_id rel albumId an aty att).2 := by
  rcases hta : rel.type_id with _ | tid
  · unfold parse_area_relation
    rw [hta]
    exact CtrC_of_silent rfl
  · rcases har : rel.area with _ | adoc
    · unfold parse_area_relation
      rw [hta, har]
      exact CtrC_of_silent rfl
    · unfold parse_area_relation
      rw [hta, har]
      dsimp only
      split
      · exact CtrC_of_silent rfl
      · split
        · exact CtrC_of_silent rfl
        · split
          · split
            · refine CtrC_pre ?_ (add_country_CtrC _ _)
              split
              · rfl
              · rfl
            · split
              · refine CtrC_pre ?_ (get_area_info_CtrC _ _ albumId)
                split
                · rfl
                · rfl
              · show CtrC st _ []
                refine CtrC_of_silent ?_
                split
                · rfl
                · rfl
          · split
            · exact add_country_CtrC st _
            · exact CtrC_of_silent rfl

theorem rel_loop_CtrC (albumId area_id an aty att : String) :
    ∀ (rels : List RelDoc) (st : PluginState),
      CtrC st (rel_loop albumId area_id an aty att rels st).1
        (rel_loop albumId area_id an aty att rels st).2 := by
  intro rels
  induction rels with
  | nil => intro st; exact CtrC_of_silent rfl
  | cons rel rest ih =>
    intro st
    show CtrC st (rel_loop albumId area_id an aty att rest
        (parse_area_relation st area_id rel albumId an aty att).1).1 _
    exact CtrC_comp (parse_area_relation_CtrC st area_id albumId an aty att rel) (ih _)

theorem process_area_field_CtrC (albumId k : String) (v : Option String)
    (acc : PluginState × List Event × List (String × String)) :
    ∃ δ, (process_area_field albumId k v acc).2.1 = acc.2.1 ++ δ
      ∧ CtrC acc.1 (process_area_field albumId k v acc).1 δ := by
  unfold process_area_field
  cases v with
  | none => exact ⟨[], (List.append_nil _).symm, CtrC_of_silent rfl⟩
  | some aid =>
    dsimp only
    split
    · exact ⟨[], (List.append_nil _).symm, CtrC_of_silent rfl⟩
    · split
      · exact ⟨[], (List.append_nil _).symm, CtrC_of_silent rfl⟩
      · exact ⟨(get_area_info acc.1 aid albumId).2, rfl, get_area_info_CtrC acc.1 aid albumId⟩

theorem artist_body_CtrC (st : PluginState) (doc : ArtistDoc) (artist albumId : String) :
    CtrC st (artist_body st doc artist albumId).1 (artist_body st doc artist albumId).2 := by
  unfold artist_body
  dsimp only
  obtain ⟨d1, e1, c1⟩ := process_area_field_CtrC albumId "area" doc.area (st, [], _)
  obtain ⟨d2, e2, c2⟩ := process_area_field_CtrC albumId "begin-area" doc.begin_area _
  obtain ⟨d3, e3, c3⟩ := process_area_field_CtrC albumId "end-area" doc.end_area _
  rw [e3, e2, e1]
  simp only [List.nil_append]
  exact CtrC_post (CtrC_comp (CtrC_comp c1 c2) c3) rfl

theorem artist_handler_CtrC1 (cfg : Config) (st : PluginState) (err : Bool)
    (doc : ArtistDoc) (artist albumId : String)
    (hsome : (dlookup st.album_processing_count albumId).isSome = true) :
    CtrC1 albumId st (artist_handler cfg st err doc artist albumId).1
      (artist_handler cfg st err doc artist albumId).2 := by
  unfold artist_handler
  dsimp only
  cases err with
  | true =>
    simp only [if_true]
    exact CtrC1_comp_left (CtrC_of_silent rfl)
      (album_remove_request_CtrC1 cfg st albumId hsome)
  | false =>
    simp only [Bool.false_eq_true, if_false, reduceIte]
    have hb := artist_body_CtrC st doc artist albumId
    refine CtrC1_comp_left hb (album_remove_request_CtrC1 cfg _ albumId ?_)
    exact hb.2.1 albumId hsome

theorem CtrC1_finish {al : String} {s1 s2 : PluginState} {e1 : List Event}
    (cfg : Config) (area : String) (h1 : CtrC s1 s2 e1)
    (hsome : (dlookup s1.album_processing_count al).isSome = true) :
    CtrC1 al s1 (album_remove_request cfg (remove_album_area_request s2 al area) al).1
      (e1 ++ (album_remove_request cfg (remove_album_area_request s2 al area) al).2) := by
  have hrc : (remove_album_area_request s2 al area).album_processing_count
      = s2.album_processing_count := by
    unfold remove_album_area_request
    split <;> rfl
  have hs2 : (dlookup (remove_album_area_request s2 al area).album_processing_count al).isSome
      = true := by
    rw [hrc]
    exact h1.2.1 al hsome
  exact CtrC1_comp_left h1 (CtrC1_pre hrc (album_remove_request_CtrC1 cfg _ al hs2))

theorem area_handler_CtrC1 (cfg : Config) (st : PluginState) (err : Bool)
    (doc : AreaDocTop) (area albumId : String)
    (hsome : (dlookup st.album_processing_count albumId).isSome = true) :
    CtrC1 albumId st (area_handler cfg st err doc area albumId).1
      (area_handler cfg st err doc area albumId).2 := by
  unfold area_handler
  dsimp only
  refine CtrC1_finish cfg area ?_ hsome
  cases err with
  | true =>
    simp only [if_true]
    exact CtrC_of_silent rfl
  | false =>
    simp only [Bool.false_eq_true, if_false, reduceIte]
    split
    · split
      · exact CtrC_of_silent rfl
      · exact CtrC_of_silent rfl
    · refine CtrC_pre ?_ (rel_loop_CtrC albumId _ _ _ _ _ _)
      split
      · rfl
      · rfl

theorem artist_processing_loop_CtrC (albumId : String) :
    ∀ (ids : List String) (st : PluginState),
      CtrC st (artist_processing_loop albumId ids st).1
        (artist_processing_loop albumId ids st).2 := by
  intro ids
  induction ids with
  | nil => intro st; exact CtrC_of_silent rfl
  | cons tid rest ih =>
    intro st
    by_cases h : st.artist_requests.contains tid = true
    · unfold artist_processing_loop
      rw [if_pos h]
      exact ih st
    · unfold artist_processing_loop
      rw [if_neg h]
      dsimp only
      refine CtrC_comp ?_ (ih _)
      exact CtrC_pre rfl (get_artist_info_CtrC _ tid albumId)

theorem add_target_count (st : PluginState) (albumId : String) (artists : List String)
    (t : List (String × String)) :
    (add_target st albumId artists t).album_processing_count = st.album_processing_count := by
  unfold add_target make_empty_target
  repeat' (first | split | dsimp only)
  all_goals rfl

theorem artist_processing_CtrC0 (cfg : Config) (st : PluginState) (artists : List String)
    (albumId : String) :
    CtrC0 st (artist_processing cfg st artists albumId).1
      (artist_processing cfg st artists albumId).2 := by
  unfold artist_processing
  dsimp only
  refine CtrC0_comp_left (artist_processing_loop_CtrC albumId artists st) ?_
  exact CtrC0_pre (add_target_count _ albumId artists []) (save_CtrC0 cfg _ albumId)

theorem make_album_vars_CtrC0 (cfg : Config) (st : PluginState) (albumId : String)
    (artists : List String) :
    CtrC0 st (make_album_vars cfg st albumId artists).1
      (make_album_vars cfg st albumId artists).2 := by
  unfold make_album_vars make_empty_target
  repeat' (first | split | dsimp only)
  all_goals
    refine CtrC0_pre ?_ (artist_processing_CtrC0 cfg _ artists albumId)
  all_goals rfl



theorem CAgreeD_decr (m c : List (String × Int)) (a : String)
    (h : CAgreeD dZero m c) :
    CAgreeD (dOne a) (dinsert a (dlookupInt m a - 1) m) c := by
  intro b
  by_cases hx : a = b
  · subst hx
    rw [dlookupInt_dinsert_self]
    have h1 := h a
    have h2 : dZero a = (0 : Int) := rfl
    have h3 : dOne a a = 1 := by simp [dOne]
    rw [h2] at h1
    rw [h3]
    omega
  · rw [dlookupInt_dinsert_ne _ _ hx]
    have h1 := h b
    have h2 : dOne a b = 0 := by
      unfold dOne
      rw [if_neg (fun hh => hx (Eq.symm hh))]
    have h3 : dZero b = (0 : Int) := rfl
    rw [h3] at h1
    rw [h2]
    omega

theorem CtrInv_step (cfg : Config) (w : World) (step : Step) (h : CtrInv w)
    (hnr : ∀ a, step ≠ Step.removeAlbum a) : CtrInv (runStep cfg w step) := by
  obtain ⟨hchk, hag, hpa, hpr⟩ := h
  cases step with
  | processAlbum a artists =>
    obtain ⟨hb, hm, hp⟩ := make_album_vars_CtrC0 cfg w.st a artists
    obtain ⟨hc2, hag2⟩ := hb (balAfter [] w.log) hag
    refine ⟨?_, ?_, ?_, ?_⟩
    · show chkFrom [] (w.log ++ (make_album_vars cfg w.st a artists).2) = true
      rw [chkFrom_append, hchk, hc2]
      rfl
    · show CAgreeD dZero (balAfter [] (w.log ++ (make_album_vars cfg w.st a artists).2))
        (make_album_vars cfg w.st a artists).1.album_processing_count
      rw [balAfter_append]
      exact hag2
    · intro p hp2
      show (dlookup (make_album_vars cfg w.st a artists).1.album_processing_count p.2).isSome
        = true
      rcases List.mem_append.mp hp2 with hold | hnew
      · exact hm p.2 (hpa p hold)
      · exact hp p (List.mem_append.mpr (Or.inl hnew))
    · intro p hp2
      show (dlookup (make_album_vars cfg w.st a artists).1.album_processing_count p.2).isSome
        = true
      rcases List.mem_append.mp hp2 with hold | hnew
      · exact hm p.2 (hpr p hold)
      · exact hp p (List.mem_append.mpr (Or.inr hnew))
  | processTrack a artists =>
    obtain ⟨hb, hm, hp⟩ := artist_processing_CtrC0 cfg w.st artists a
    obtain ⟨hc2, hag2⟩ := hb (balAfter [] w.log) hag
    refine ⟨?_, ?_, ?_, ?_⟩
    · show chkFrom [] (w.log ++ (artist_processing cfg w.st artists a).2) = true
      rw [chkFrom_append, hchk, hc2]
      rfl
    · show CAgreeD dZero (balAfter [] (w.log ++ (artist_processing cfg w.st artists a).2))
        (artist_processing cfg w.st artists a).1.album_processing_count
      rw [balAfter_append]
      exact hag2
    · intro p hp2
      show (dlookup (artist_processing cfg w.st artists a).1.album_processing_count p.2).isSome
        = true
      rcases List.mem_append.mp hp2 with hold | hnew
      · exact hm p.2 (hpa p hold)
      · exact hp p (List.mem_append.mpr (Or.inl hnew))
    · intro p hp2
      show (dlookup (artist_processing cfg w.st artists a).1.album_processing_count p.2).isSome
        = true
      rcases List.mem_append.mp hp2 with hold | hnew
      · exact hm p.2 (hpr p hold)
      · exact hp p (List.mem_append.mpr (Or.inr hnew))
  | artistDone artist a err doc =>
    simp only [runStep]
    by_cases hmem : (artist, a) ∈ w.pendA
    · rw [if_pos hmem]
      have hsome := hpa (artist, a) hmem
      obtain ⟨hb, hm, hp⟩ := artist_handler_CtrC1 cfg w.st err doc artist a hsome
      have hag1 : CAgreeD (dOne a)
          (balStep (balAfter [] w.log) (Event.artistCompleted artist a))
          w.st.album_processing_count :=
        CAgreeD_decr (balAfter [] w.log) w.st.album_processing_count a hag
      obtain ⟨hc2, hag2⟩ := hb _ hag1
      refine ⟨?_, ?_, ?_, ?_⟩
      · show chkFrom [] (w.log ++ (Event.artistCompleted artist a
            :: (artist_handler cfg w.st err doc artist a).2)) = true
        rw [chkFrom_append, hchk]
        have h5 : chkFrom (balAfter [] w.log) (Event.artistCompleted artist a
              :: (artist_handler cfg w.st err doc artist a).2)
            = chkFrom (balStep (balAfter [] w.log) (Event.artistCompleted artist a))
                (artist_handler cfg w.st err doc artist a).2 := rfl
        rw [h5, hc2]
        rfl
      · show CAgreeD dZero (balAfter [] (w.log ++ (Event.artistCompleted artist a
            :: (artist_handler cfg w.st err doc artist a).2)))
          (artist_handler cfg w.st err doc artist a).1.album_processing_count
        rw [balAfter_append]
        exact hag2
      · intro p hp2
        show (dlookup
            (artist_handler cfg w.st err doc artist a).1.album_processing_count p.2).isSome
          = true
        rcases List.mem_append.mp hp2 with hold | hnew
        · exact hm p.2 (hpa p (List.mem_of_mem_erase hold))
        · exact hp p (List.mem_append.mpr (Or.inl hnew))
      · intro p hp2
        show (dlookup
            (artist_handler cfg w.st err doc artist a).1.album_processing_count p.2).isSome
          = true
        rcases List.mem_append.mp hp2 with hold | hnew
        · exact hm p.2 (hpr p hold)
        · exact hp p (List.mem_append.mpr (Or.inr hnew))
    · rw [if_neg hmem]
      exact ⟨hchk, hag, hpa, hpr⟩
  | areaDone area a err doc =>
    simp only [runStep]
    by_cases hmem : (area, a) ∈ w.pendR
    · rw [if_pos hmem]
      have hsome := hpr (area, a) hmem
      obtain ⟨hb, hm, hp⟩ := area_handler_CtrC1 cfg w.st err doc area a hsome
      have hag1 : CAgreeD (dOne a)
          (balStep (balAfter [] w.log) (Event.areaCompleted area a))
          w.st.album_processing_count :=
        CAgreeD_decr (balAfter [] w.log) w.st.album_processing_count a hag
      obtain ⟨hc2, hag2⟩ := hb _ hag1
      refine ⟨?_, ?_, ?_, ?_⟩
      · show chkFrom [] (w.log ++ (Event.areaCompleted area a
            :: (area_handler cfg w.st err doc area a).2)) = true
        rw [chkFrom_append, hchk]
        have h5 : chkFrom (balAfter [] w.log) (Event.areaCompleted area a
              :: (area_handler cfg w.st err doc area a).2)
            = chkFrom (balStep (balAfter [] w.log) (Event.areaCompleted area a))
                (area_handler cfg w.st err doc area a).2 := rfl
        rw [h5, hc2]
        rfl
      · show CAgreeD dZero (balAfter [] (w.log ++ (Event.areaCompleted area a
            :: (area_handler cfg w.st err doc area a).2)))
          (area_handler cfg w.st err doc area a).1.album_processing_count
        rw [balAfter_append]
        exact hag2
      · intro p hp2
        show (dlookup
            (area_handler cfg w.st err doc area a).1.album_processing_count p.2).isSome
          = true
        rcases List.mem_append.mp hp2 with hold | hnew
        · exact hm p.2 (hpa p hold)
        · exact hp p (List.mem_append.mpr (Or.inl hnew))
      · intro p hp2
        show (dlookup
            (area_handler cfg w.st err doc area a).1.album_processing_count p.2).isSome
          = true
        rcases List.mem_append.mp hp2 with hold | hnew
        · exact hm p.2 (hpr p (List.mem_of_mem_erase hold))
        · exact hp p (List.mem_append.mpr (Or.inr hnew))
    · rw [if_neg hmem]
      exact ⟨hchk, hag, hpa, hpr⟩
  | removeAlbum a => exact absurd rfl (hnr a)

theorem CtrInv_init : CtrInv worldInit := by
  refine ⟨rfl, fun a => ?_, fun p hp => ?_, fun p hp => ?_⟩
  · show dlookupInt (balAfter [] []) a + dZero a = dlookupInt [] a
    rfl
  · cases hp
  · cases hp

theorem CtrInv_trace (cfg : Config) :
    ∀ (steps : List Step) (w : World), CtrInv w → noRemoval steps →
      CtrInv (runTrace cfg w steps) := by
  intro steps
  induction steps with
  | nil => intro w h _; exact h
  | cons s rest ih =>
    intro w h hnr
    refine ih (runStep cfg w s) (CtrInv_step cfg w s h ?_) ?_
    · intro a
      exact hnr s (List.mem_cons_self s rest) a
    · intro x hx a
      exact hnr x (List.mem_cons_of_mem s hx) a



/-- C2 (amended): in a session without album removal, every metadata
write-back execution happens only after every fetch issued on behalf of
its album has completed: wherever a write-back for album a stands in the
session log, the fetches issued for a in the log before it equal the
completions delivered for a before it.  (The "exactly once per album
load cycle" half of the original claim is refuted by c2_counterexample;
this theorem establishes the surviving completion-closure half.) -/
theorem c2_amended (cfg : Config) (steps : List Step) (L1 L2 : List Event) (a : String)
    (hnr : noRemoval steps)
    (hlog : (runTrace cfg worldInit steps).log = L1 ++ Event.writeBackRun a :: L2) :
    issCnt L1 a = compCnt L1 a := by
  have hinv := CtrInv_trace cfg steps worldInit CtrInv_init hnr
  have hchk := hinv.1
  rw [hlog, chkFrom_append, Bool.and_eq_true] at hchk
  have h3 : (evOK (balAfter [] L1) (Event.writeBackRun a)
      && chkFrom (balStep (balAfter [] L1) (Event.writeBackRun a)) L2) = true := hchk.2
  rw [Bool.and_eq_true] at h3
  have h5 : (dlookupInt (balAfter [] L1) a == 0) = true := h3.1
  have h6 : dlookupInt (balAfter [] L1) a = 0 := by simpa using h5
  have h7 := balAfter_int a L1 []
  have h8 : dlookupInt ([] : List (String × Int)) a = 0 := rfl
  rw [h7, h8] at h6
  omega

/-- Witness for c2_amended: the concrete session c2trace, at the first
write-back for album a in its log. -/
theorem c2_amended_witness :
    issCnt [Event.fetchArtist "x" "b", Event.artistCompleted "x" "b",
      Event.writeBackRun "b", Event.finalize "b"] "a"
    = compCnt [Event.fetchArtist "x" "b", Event.artistCompleted "x" "b",
      Event.writeBackRun "b", Event.finalize "b"] "a" :=
  c2_amended cfg0 c2trace
    [Event.fetchArtist "x" "b", Event.artistCompleted "x" "b",
      Event.writeBackRun "b", Event.finalize "b"]
    [Event.fetchArtist "y" "a", Event.artistCompleted "y" "a",
      Event.writeBackRun "a", Event.finalize "a"]
    "a"
    (by
      intro s hs a
      fin_cases hs <;> simp)
    (by decide)


end AAD
